import Mathlib

/-!
Verification of the Route-Planner map application (src/map_app.ts,
src/mcp_maps_server.ts, src/constants.ts, src/types.ts) against its
natural-language specification.

The TypeScript code is shallowly embedded: JavaScript numbers become `ℚ`
(the arithmetic performed by the relevant code paths is exact on the
inputs considered), strings become `String`, arrays become `List`,
optional values become `Option`, and the component's mutable fields
become explicit state records.  External services (the Google directions
and geocoding APIs, `Date` parsing, `parseFloat`) are modelled as oracle
parameters; everything computed locally by the source is translated
directly.
-/

namespace RoutePlanner

/-! ## JavaScript primitives used by the source -/

/-- Whitespace predicate used to model the behaviour of JavaScript
`String.prototype.trim` on the character set this application handles. -/
def jsWs (c : Char) : Bool := c.isWhitespace

/-- Character-list version of `trim`: drop whitespace from both ends. -/
def trimChars (l : List Char) : List Char :=
  ((l.dropWhile jsWs).reverse.dropWhile jsWs).reverse

/-- Model of JavaScript `s.trim()`. -/
def jsTrim (s : String) : String := ⟨trimChars s.data⟩

/-- Model of JavaScript `a.includes(b)` on lists of characters:
`sub` occurs contiguously in `l`. -/
def hasSub (sub : List Char) : List Char → Bool
  | [] => sub.isEmpty
  | c :: t => sub.isPrefixOf (c :: t) || hasSub sub t

/-- Model of JavaScript `s.includes(sub)`. -/
def jsIncludes (s sub : String) : Bool := hasSub sub.data s.data

/-- Decimal digit character. -/
def digitChar (n : ℕ) : Char := Char.ofNat (48 + n % 10)

/-- Decimal digits of a natural number, with explicit fuel (any fuel
above the number of digits gives the same answer). -/
def natStrCharsAux : ℕ → ℕ → List Char
  | 0, _ => []
  | fuel + 1, n =>
    if n < 10 then [digitChar n]
    else natStrCharsAux fuel (n / 10) ++ [digitChar (n % 10)]

/-- Decimal digits of a natural number (JavaScript number-to-string on the
non-negative integers appearing in the formatting code). -/
def natStrChars (n : ℕ) : List Char := natStrCharsAux (n + 1) n

/-- Decimal rendering of a natural number. -/
def natStr (n : ℕ) : String := ⟨natStrChars n⟩

/-- Model of JavaScript `s.split(sep)` for a single-character separator,
on character lists. -/
def splitOnChar (sep : Char) : List Char → List (List Char)
  | [] => [[]]
  | c :: t =>
    if c = sep then [] :: splitOnChar sep t
    else
      match splitOnChar sep t with
      | h :: r => (c :: h) :: r
      | [] => [[c]]

/-- Model of JavaScript `s.split(sep)` for a single-character separator. -/
def jsSplit (s : String) (sep : Char) : List String :=
  (splitOnChar sep s.data).map (fun l => ⟨l⟩)

/-- Model of JavaScript `s.startsWith(p)`. -/
def jsStartsWith (s p : String) : Bool := p.data.isPrefixOf s.data

/-- Model of JavaScript `Math.round` (round half toward positive
infinity). -/
def jsRound (q : ℚ) : ℤ := Rat.floor (q + 1 / 2)

/-! ## Constants (src/constants.ts) -/

/-- src/constants.ts line 117. -/
def METERS_TO_MILES : ℚ := 0.000621371

/-- src/constants.ts line 116. -/
def DEFAULT_GAS_PRICE_PER_GALLON : ℚ := 3.5

/-! ## Travel modes and directions legs (src/mcp_maps_server.ts, types.ts) -/

inductive TravelMode where
  | DRIVING
  | WALKING
  | BICYCLING
  | TRANSIT
deriving DecidableEq

/-- One leg of a successful directions response: the fields of
`leg.distance.value` (meters) and `leg.duration.value` (seconds) that the
itinerary post-processing reads. -/
structure DirLeg where
  distanceValue : ℚ
  durationValue : ℕ
deriving DecidableEq

/-! ## Itinerary totals (src/map_app.ts, `_handleDirections`) -/

/-- Fuel cost of one leg, from src/map_app.ts lines 712–716:
`(distanceMiles / this.mpg) * DEFAULT_GAS_PRICE_PER_GALLON` when the
selected travel mode is DRIVING, `0` otherwise, where
`distanceMiles = leg.distance.value * METERS_TO_MILES`. -/
def legFuelCost (mode : TravelMode) (mpg : ℚ) (leg : DirLeg) : ℚ :=
  if mode = TravelMode.DRIVING then
    leg.distanceValue * METERS_TO_MILES / mpg * DEFAULT_GAS_PRICE_PER_GALLON
  else 0

/-- Duration formatting, src/map_app.ts lines 766–778
(`_formatTotalDuration`). -/
def formatTotalDuration (totalSeconds : ℕ) : String :=
  let days := totalSeconds / (3600 * 24)
  let rem1 := totalSeconds % (3600 * 24)
  let hours := rem1 / 3600
  let rem2 := rem1 % 3600
  let minutes := rem2 / 60
  let result :=
    (if days > 0 then natStr days ++ " day" ++ (if days > 1 then "s" else "") ++ " " else "") ++
    (if hours > 0 then natStr hours ++ " hour" ++ (if hours > 1 then "s" else "") ++ " " else "") ++
    (if minutes > 0 then natStr minutes ++ " min" ++ (if minutes > 1 then "s" else "") else "")
  jsTrim result

/-- The summable fields of the `ItineraryData` record built by
`_handleDirections` (src/map_app.ts lines 643–663 and 712–732). -/
structure ItineraryTotals where
  totalDistance : ℚ
  totalTime : String
  totalFuelCost : ℚ
  totalAccommodationCost : ℚ
deriving DecidableEq

/-- The totals computed by `_handleDirections` on a successful response:
`totalDistance` and `totalTime` by `reduce` over the legs (lines
646–655), `totalAccommodationCost` by `reduce` over the provided
`accommodationCosts` or `0` (lines 657–659), and `totalFuelCost`
accumulated leg by leg in the `forEach` loop (lines 712–716 and 732).
The travel mode defaults to DRIVING when absent (line 621). -/
def buildItineraryTotals (legs : List DirLeg) (accommodationCosts : Option (List ℚ))
    (travelMode : Option TravelMode) (mpg : ℚ) : ItineraryTotals :=
  let selectedTravelMode := travelMode.getD TravelMode.DRIVING
  { totalDistance := legs.foldl (fun sum leg => sum + leg.distanceValue) 0
    totalTime := formatTotalDuration (legs.foldl (fun sum leg => sum + leg.durationValue) 0)
    totalFuelCost := legs.foldl (fun sum leg => sum + legFuelCost selectedTravelMode mpg leg) 0
    totalAccommodationCost :=
      match accommodationCosts with
      | some costs => costs.foldl (fun sum cost => sum + cost) 0
      | none => 0 }

/-! ## Animation timing (src/map_app.ts, `_startAnimation`,
`_updateRouteAnimation`) -/

/-- Total animation cycle duration from `_startAnimation`
(src/map_app.ts lines 480–487): linear interpolation between
`2000 * legCount` at speed 0 and `1000` at speed 99. -/
def animTotalDuration (legCount : ℕ) (speed : ℚ) : ℚ :=
  2000 * legCount - speed / 99 * (2000 * legCount - 1000)

/-- Per-leg delay from `_startAnimation` (src/map_app.ts line 489). -/
def delayPerLeg (legCount : ℕ) (speed : ℚ) : ℚ :=
  if 0 < legCount then animTotalDuration legCount speed / legCount else 0

inductive RouteDrawMode where
  | staticRoute
  | animated
deriving DecidableEq

/-- How the route is (re)drawn for a given slider speed:
`_updateRouteAnimation` (lines 519–528) draws statically at speed 100 and
otherwise calls `_startAnimation`, which itself falls back to the static
drawing for any speed of at least 100 (lines 472–476). -/
def routeDrawMode (speed : ℤ) : RouteDrawMode :=
  if speed = 100 then RouteDrawMode.staticRoute
  else if 100 ≤ speed then RouteDrawMode.staticRoute
  else RouteDrawMode.animated

/-- The waits issued by one pass of the per-leg loop in
`_runAnimationLoop` (src/map_app.ts lines 551–560): one fixed
`delayPerLeg` wait after drawing each leg. -/
def runAnimationLoopDelays (legCount : ℕ) (delay : ℚ) : List ℚ :=
  (List.range legCount).map (fun _ => delay)

/-! ## Color spectrum (src/map_app.ts, `_generateColorSpectrum`) -/

/-- One interpolated color channel: `Math.round(a + (b - a) * fraction)`
(src/map_app.ts lines 402–404 and 412–414). -/
def lerpChannel (a b : ℤ) (fraction : ℚ) : ℤ :=
  jsRound ((a : ℚ) + ((b : ℚ) - (a : ℚ)) * fraction)

/-- CSS color string as produced by the template literals of
`_generateColorSpectrum`. -/
def rgbStr (r g b : ℤ) : String :=
  "rgb(" ++ toString r ++ ", " ++ toString g ++ ", " ++ toString b ++ ")"

/-- Direct translation of `_generateColorSpectrum` (src/map_app.ts lines
389–419): a single green for at most one step; otherwise a green-to-blue
ramp over indices `0..midPointIndex` followed by a blue-to-red ramp over
the remaining `steps - 1 - midPointIndex` indices.  The anchors are
green `(0, 255, 0)`, blue `(0, 0, 255)` and red `(255, 0, 0)`. -/
def generateColorSpectrum (steps : ℕ) : List String :=
  if steps ≤ 1 then [rgbStr 0 255 0]
  else
    let midPointIndex := (steps - 1) / 2
    let firstHalf := (List.range (midPointIndex + 1)).map (fun i : ℕ =>
      let fraction : ℚ := if midPointIndex = 0 then 1 else (i : ℚ) / (midPointIndex : ℚ)
      rgbStr (lerpChannel 0 0 fraction) (lerpChannel 255 0 fraction)
        (lerpChannel 0 255 fraction))
    let secondHalfSteps := steps - 1 - midPointIndex
    let secondHalf := (List.range secondHalfSteps).map (fun j : ℕ =>
      let fraction : ℚ := ((j + 1 : ℕ) : ℚ) / (secondHalfSteps : ℚ)
      rgbStr (lerpChannel 0 255 fraction) (lerpChannel 0 0 fraction)
        (lerpChannel 255 0 fraction))
    firstHalf ++ secondHalf

/-! ## Itinerary markdown-table parser (src/map_app.ts,
`_parseItineraryTable`) -/

/-- Result record of `_parseItineraryTable`. -/
structure ParsedItinerary where
  stops : List String
  dates : List String
  accommodationCosts : List ℚ
deriving DecidableEq

/-- Removal of the markers `**`, `– START` and `– RETURN` everywhere in
the stop-name cell: `columns[3].replace(/\*\*|– START|– RETURN/g, '')`
(src/map_app.ts lines 1129–1131).  The dash is the en dash U+2013. -/
def stripMarkers : List Char → List Char
  | [] => []
  | '*' :: '*' :: rest => stripMarkers rest
  | '–' :: ' ' :: 'S' :: 'T' :: 'A' :: 'R' :: 'T' :: rest => stripMarkers rest
  | '–' :: ' ' :: 'R' :: 'E' :: 'T' :: 'U' :: 'R' :: 'N' :: rest => stripMarkers rest
  | c :: rest => c :: stripMarkers rest

/-- The trimmed cells of one table row: `row.split('|').map(c => c.trim())`
(src/map_app.ts line 1125). -/
def rowColumns (row : String) : List String :=
  (jsSplit row '|').map jsTrim

/-- A data row is processed exactly when it starts with a pipe and splits
into at least 8 columns (src/map_app.ts lines 1124–1126). -/
def isValidRow (row : String) : Bool :=
  jsStartsWith row "|" && 8 ≤ (jsSplit row '|').length

/-- Cleaned stop name from column 3 (src/map_app.ts lines 1129–1131). -/
def stopNameForLabel (row : String) : String :=
  jsTrim ⟨stripMarkers ((rowColumns row).getD 3 "").data⟩

/-- Geocoding query built from the stop name and the address in column 4
(src/map_app.ts lines 1134–1142). -/
def stopQuery (row : String) : String :=
  let address := (rowColumns row).getD 4 ""
  let name := stopNameForLabel row
  if address ≠ "" ∧ address ≠ "—" then
    if jsIncludes name "Home" then address else name ++ ", " ++ address
  else name

/-- The structured stop pushed for one row:
`stops.push(`${stopNameForLabel};;;${query}`)` (src/map_app.ts line 1143). -/
def stopEntry (row : String) : String :=
  stopNameForLabel row ++ ";;;" ++ stopQuery row

/-- First part of the date cell before an en dash or hyphen, trimmed
(src/map_app.ts line 1150). -/
def firstDatePart (row : String) : String :=
  jsTrim ⟨((rowColumns row).getD 2 "").data.takeWhile (fun c => c ≠ '–' ∧ c ≠ '-')⟩

/-- Date string pushed for one row (src/map_app.ts lines 1146–1163).
`dateOracle` models `new Date(...)` followed by
`toISOString().split('T')[0]`, returning `none` when the date is invalid
(`isNaN(date.getTime())`); `year` models `new Date().getFullYear()`. -/
def dateEntry (dateOracle : String → Option String) (year : ℕ) (row : String) : String :=
  let dateStr := (rowColumns row).getD 2 ""
  if dateStr ≠ "" ∧ dateStr ≠ "—" then
    match dateOracle (firstDatePart row ++ " " ++ natStr year) with
    | some iso => iso
    | none => ""
  else ""

/-- Nightly rate pushed for one row (src/map_app.ts lines 1166–1172).
`floatOracle` models `parseFloat`, returning `none` when the result is
`NaN`; the characters `$` and `\` are removed first. -/
def rateEntry (floatOracle : String → Option ℚ) (row : String) : ℚ :=
  let rateStr := (rowColumns row).getD 7 ""
  if rateStr ≠ "" ∧ rateStr ≠ "—" then
    match floatOracle ⟨rateStr.data.filter (fun c => c ≠ '$' ∧ c ≠ '\\')⟩ with
    | some rate => rate
    | none => 0
  else 0

/-- The row loop of `_parseItineraryTable` (src/map_app.ts lines
1123–1173): rows that do not start with a pipe or have fewer than 8
columns are skipped (`continue`); every other row pushes one stop, one
date and one rate, in order. -/
def processItineraryRows (dateOracle : String → Option String)
    (floatOracle : String → Option ℚ) (year : ℕ) :
    List String → List String × List String × List ℚ
  | [] => ([], [], [])
  | row :: rest =>
    let acc := processItineraryRows dateOracle floatOracle year rest
    if isValidRow row then
      (stopEntry row :: acc.1, dateEntry dateOracle year row :: acc.2.1,
        rateEntry floatOracle row :: acc.2.2)
    else acc

/-- The trimmed, non-blank lines of the input
(src/map_app.ts lines 1103–1106). -/
def tableLines (markdown : String) : List String :=
  ((jsSplit markdown '\n').map jsTrim).filter (fun l => l ≠ "")

/-- The data rows that are actually processed: rows after the header and
separator that start with a pipe and have at least 8 columns. -/
def validDataRows (markdown : String) : List String :=
  ((tableLines markdown).drop 2).filter isValidRow

/-- Direct translation of `_parseItineraryTable` (src/map_app.ts lines
1100–1187): split into trimmed non-blank lines, check the table shape,
process the data rows, require at least two stops, and drop the first
rate to obtain the accommodation costs. -/
def parseItineraryTable (dateOracle : String → Option String)
    (floatOracle : String → Option ℚ) (year : ℕ) (markdown : String) :
    Option ParsedItinerary :=
  let lines := tableLines markdown
  if lines.length < 3 ∨ jsIncludes (lines.getD 0 "") "|" = false ∨
      jsIncludes (lines.getD 1 "") "--" = false then none
  else
    let dataRows := lines.drop 2
    let acc := processItineraryRows dateOracle floatOracle year dataRows
    if acc.1.length < 2 then none
    else some { stops := acc.1, dates := acc.2.1, accommodationCosts := acc.2.2.drop 1 }

/-! ## Component state (src/map_app.ts fields, src/types.ts `MapView`) -/

inductive SidebarTab where
  | itinerary
  | tour
deriving DecidableEq

inductive ViewType where
  | stop
  | leg
  | custom
deriving DecidableEq

/-- A saved camera view (src/types.ts `MapView`). -/
structure MapView where
  id : ℚ
  name : String
  centerLat : ℚ
  centerLng : ℚ
  centerAltitude : ℚ
  heading : ℚ
  tilt : ℚ
  range : ℚ
  type : ViewType
  itineraryIndex : ℚ
deriving DecidableEq

/-- Camera parameters of a view (center, heading, tilt, range); produced
for stops by `_getViewForStop` and for legs by `_getViewForLeg`, whose
range computation depends on the external spherical-geometry API and is
therefore taken as input. -/
structure CamView where
  lat : ℚ
  lng : ℚ
  altitude : ℚ
  heading : ℚ
  tilt : ℚ
  range : ℚ
deriving DecidableEq

/-- The component state of the `MapApp` element that the verified
operations read or write (src/map_app.ts lines 83–111 and the private
map-element references). Map elements are tracked by count. -/
structure AppState where
  itineraryData : Option ItineraryTotals
  activeRightSidebarTab : SidebarTab
  routePolylines : ℕ
  stopMarkers : ℕ
  hasMarker : Bool
  savedViews : List MapView
  playbackDelay : ℚ
  playbackFlyoverTime : ℚ
  loopTour : Bool
  isPlayingTour : Bool
  isSavingView : Bool
  nextViewId : ℚ
  draggedItemId : Option ℚ
  editingViewId : Option ℚ
  addStopsToTourToggle : Bool
  addLegsToTourToggle : Bool
  animationSpeed : ℤ
  mpg : ℚ
deriving DecidableEq

/-- View record built when a view is added to the tour. -/
def mkView (id : ℚ) (name : String) (cam : CamView) (type : ViewType)
    (itineraryIndex : ℚ) : MapView :=
  { id := id, name := name, centerLat := cam.lat, centerLng := cam.lng,
    centerAltitude := cam.altitude, heading := cam.heading, tilt := cam.tilt,
    range := cam.range, type := type, itineraryIndex := itineraryIndex }

/-! ## Tour operations (src/map_app.ts lines 1275–1497) -/

/-- `saveCurrentView` (src/map_app.ts lines 1336–1385), success path: the
camera state and the (possibly reverse-geocoded) name are inputs; the new
view gets id `nextViewId`, which is then incremented. -/
def saveCurrentView (st : AppState) (cam : CamView) (name : String) : AppState :=
  { st with
    savedViews := st.savedViews ++ [mkView st.nextViewId name cam ViewType.custom (-1)],
    nextViewId := st.nextViewId + 1 }

/-- `_addFromItineraryToTour` (src/map_app.ts lines 1275–1321).  The
itinerary is given as the list of per-stop names and camera views and the
list of per-leg names and camera views (`none` models a missing
`itineraryData`).  Stop views get ids `nextViewId, nextViewId+1, …` and
itinerary indices `0, 2, 4, …`; leg views continue the id sequence with
indices `1, 3, 5, …`; when both toggles are on, the combined batch is
sorted by itinerary index (a stable sort models the ES2019 `sort`). -/
def addFromItineraryToTour (st : AppState)
    (itin : Option (List (String × CamView) × List (String × CamView))) : AppState :=
  match itin with
  | none => st
  | some (stopSrc, legSrc) =>
    if st.addStopsToTourToggle = false ∧ st.addLegsToTourToggle = false then st
    else
      let stopViews := if st.addStopsToTourToggle then
          stopSrc.enum.map (fun p =>
            mkView (st.nextViewId + p.1) p.2.1 p.2.2 ViewType.stop ((p.1 : ℚ) * 2))
        else []
      let nid1 := st.nextViewId + stopViews.length
      let legViews := if st.addLegsToTourToggle then
          legSrc.enum.map (fun p =>
            mkView (nid1 + p.1) p.2.1 p.2.2 ViewType.leg ((p.1 : ℚ) * 2 + 1))
        else []
      let viewsToAdd := stopViews ++ legViews
      let sorted := if st.addStopsToTourToggle ∧ st.addLegsToTourToggle then
          viewsToAdd.mergeSort (fun a b => decide (a.itineraryIndex ≤ b.itineraryIndex))
        else viewsToAdd
      { st with
        savedViews := st.savedViews ++ sorted,
        nextViewId := nid1 + legViews.length,
        addStopsToTourToggle := false,
        addLegsToTourToggle := false }

/-- `_clearTourViews` (src/map_app.ts lines 1387–1392). -/
def clearTourViews (st : AppState) : AppState :=
  if st.savedViews.length = 0 then st
  else { st with savedViews := [], nextViewId := 0, isPlayingTour := false }

/-- `deleteView` (src/map_app.ts lines 1424–1426). -/
def deleteView (st : AppState) (idToDelete : ℚ) : AppState :=
  { st with savedViews := st.savedViews.filter (fun view => view.id ≠ idToDelete) }

/-- `saveViewName` (src/map_app.ts lines 1441–1454): only effective while
the view is being edited and the trimmed new name is non-empty; always
leaves edit mode. -/
def saveViewName (st : AppState) (id : ℚ) (newName : String) : AppState :=
  if st.editingViewId ≠ some id then st
  else
    match st.savedViews.findIdx? (fun v => decide (v.id = id)) with
    | some viewIndex =>
      if jsTrim newName ≠ "" then
        { st with
          savedViews :=
            match st.savedViews[viewIndex]? with
            | some v => st.savedViews.set viewIndex { v with name := jsTrim newName }
            | none => st.savedViews,
          editingViewId := none }
      else { st with editingViewId := none }
    | none => { st with editingViewId := none }

/-- `handleDrop` (src/map_app.ts lines 1467–1487): splice the dragged
view out at its index and splice it back in at the drop target's original
index; a missing drag id, identical ids, or an id absent from the list
leaves the state unchanged. -/
def handleDrop (st : AppState) (dropTargetId : ℚ) : AppState :=
  match st.draggedItemId with
  | none => st
  | some draggedId =>
    if draggedId = dropTargetId then st
    else
      match st.savedViews.findIdx? (fun v => decide (v.id = draggedId)),
        st.savedViews.findIdx? (fun v => decide (v.id = dropTargetId)) with
      | some draggedIndex, some targetIndex =>
        match st.savedViews[draggedIndex]? with
        | some draggedItem =>
          { st with savedViews :=
              (st.savedViews.eraseIdx draggedIndex).insertIdx targetIndex draggedItem }
        | none => st
      | _, _ => st

/-! ## Tour export, validation and import (src/map_app.ts lines
1499–1604) -/

/-- JSON values, modelling the documents written by `exportTour` and read
by `handleFileImport`. -/
inductive JValue where
  | jnum (q : ℚ)
  | jstr (s : String)
  | jbool (b : Bool)
  | jnull
  | jarr (elems : List JValue)
  | jobj (fields : List (String × JValue))

/-- Property access `data.key` (first binding wins; `none` models
`undefined`). -/
def getField : JValue → String → Option JValue
  | JValue.jobj fields, key => fields.lookup key
  | _, _ => none

/-- `typeof x === 'object' && x !== null` (arrays are objects too). -/
def isObjectLike : JValue → Bool
  | JValue.jobj _ => true
  | JValue.jarr _ => true
  | _ => false

def fieldIsNum (o : Option JValue) : Bool :=
  match o with
  | some (JValue.jnum _) => true
  | _ => false

def fieldIsOptNum (o : Option JValue) : Bool :=
  match o with
  | none => true
  | some (JValue.jnum _) => true
  | _ => false

def fieldIsStr (o : Option JValue) : Bool :=
  match o with
  | some (JValue.jstr _) => true
  | _ => false

def fieldIsBool (o : Option JValue) : Bool :=
  match o with
  | some (JValue.jbool _) => true
  | _ => false

/-- Per-view checks of `validateTourFile` (src/map_app.ts lines
1537–1552). -/
def validateViewEntry (view : JValue) : Bool :=
  fieldIsNum (getField view "id") &&
  fieldIsStr (getField view "name") &&
  fieldIsNum (getField view "heading") &&
  fieldIsNum (getField view "tilt") &&
  fieldIsNum (getField view "range") &&
  (match getField view "center" with
   | some center =>
     isObjectLike center &&
     fieldIsNum (getField center "lat") &&
     fieldIsNum (getField center "lng") &&
     fieldIsOptNum (getField center "altitude")
   | none => false)

/-- `validateTourFile` (src/map_app.ts lines 1526–1554). -/
def validateTourFile (data : JValue) : Bool :=
  isObjectLike data &&
  fieldIsNum (getField data "playbackDelay") &&
  fieldIsOptNum (getField data "playbackFlyoverTime") &&
  fieldIsBool (getField data "loopTour") &&
  (match getField data "views" with
   | some (JValue.jarr views) => views.all validateViewEntry
   | _ => false)

def encodeViewType : ViewType → String
  | ViewType.stop => "stop"
  | ViewType.leg => "leg"
  | ViewType.custom => "custom"

/-- JSON encoding of one saved view, as serialized by
`JSON.stringify` inside `exportTour`. -/
def encodeView (v : MapView) : JValue :=
  JValue.jobj
    [("id", JValue.jnum v.id),
     ("name", JValue.jstr v.name),
     ("center", JValue.jobj
        [("lat", JValue.jnum v.centerLat),
         ("lng", JValue.jnum v.centerLng),
         ("altitude", JValue.jnum v.centerAltitude)]),
     ("heading", JValue.jnum v.heading),
     ("tilt", JValue.jnum v.tilt),
     ("range", JValue.jnum v.range),
     ("type", JValue.jstr (encodeViewType v.type)),
     ("itineraryIndex", JValue.jnum v.itineraryIndex)]

/-- The tour document assembled by `exportTour` (src/map_app.ts lines
1502–1509). -/
def tourDoc (st : AppState) : JValue :=
  JValue.jobj
    [("playbackDelay", JValue.jnum st.playbackDelay),
     ("playbackFlyoverTime", JValue.jnum st.playbackFlyoverTime),
     ("loopTour", JValue.jbool st.loopTour),
     ("views", JValue.jarr (st.savedViews.map encodeView))]

/-- `exportTour` (src/map_app.ts lines 1499–1520): writes nothing when no
view is saved, otherwise downloads the tour document. -/
def exportTour (st : AppState) : Option JValue :=
  if st.savedViews.length = 0 then none else some (tourDoc st)

def decodeViewType : String → Option ViewType
  | "stop" => some ViewType.stop
  | "leg" => some ViewType.leg
  | "custom" => some ViewType.custom
  | _ => none

/-- Typed reading of the imported view objects (the raw array that
`handleFileImport` stores into `savedViews`); `none` when some entry does
not carry the `MapView` fields. -/
def decodeViews (decodeOne : JValue → Option MapView) : List JValue → Option (List MapView)
  | [] => some []
  | j :: rest =>
    match decodeOne j, decodeViews decodeOne rest with
    | some v, some vs => some (v :: vs)
    | _, _ => none

/-- Typed reading of one imported view object (the raw object that
`handleFileImport` stores into `savedViews`). -/
def decodeView (j : JValue) : Option MapView :=
  match getField j "id", getField j "name", getField j "center", getField j "heading",
    getField j "tilt", getField j "range", getField j "type",
    getField j "itineraryIndex" with
  | some (JValue.jnum id), some (JValue.jstr name), some center,
      some (JValue.jnum heading), some (JValue.jnum tilt), some (JValue.jnum range),
      some (JValue.jstr ty), some (JValue.jnum itineraryIndex) =>
    match getField center "lat", getField center "lng", getField center "altitude",
      decodeViewType ty with
    | some (JValue.jnum lat), some (JValue.jnum lng), some (JValue.jnum altitude),
        some vt =>
      some
        { id := id, name := name, centerLat := lat, centerLng := lng,
          centerAltitude := altitude, heading := heading, tilt := tilt,
          range := range, type := vt, itineraryIndex := itineraryIndex }
    | _, _, _, _ => none
  | _, _, _, _, _, _, _, _ => none

/-- The import path of `handleFileImport` (src/map_app.ts lines
1563–1596) on an already parsed JSON document, with the user's
replacement confirmation accepted: validation failure aborts
(`none`); otherwise playback settings and views are taken from the
document, `playbackFlyoverTime` defaults to 2 when absent, `nextViewId`
becomes `Math.max(...ids, 0) + 1`, and the tour tab is activated. -/
def importTourData (data : JValue) (st : AppState) : Option AppState :=
  if validateTourFile data = false then none
  else
    match getField data "views" with
    | some (JValue.jarr viewsJson) =>
      match decodeViews decodeView viewsJson with
      | some views =>
        some { st with
          playbackDelay :=
            (match getField data "playbackDelay" with
             | some (JValue.jnum q) => q
             | _ => 0),
          playbackFlyoverTime :=
            (match getField data "playbackFlyoverTime" with
             | some (JValue.jnum q) => q
             | _ => 2),
          loopTour :=
            (match getField data "loopTour" with
             | some (JValue.jbool b) => b
             | _ => false),
          savedViews := views,
          nextViewId := (views.map (fun v => v.id)).foldl max 0 + 1,
          activeRightSidebarTab := SidebarTab.tour }
      | none => none
    | _ => none

/-! ## Map query dispatch (src/map_app.ts `handleMapQuery`,
src/mcp_maps_server.ts `MapParams`) -/

/-- The parameter record sent by the MCP server tools
(src/mcp_maps_server.ts lines 23–31). -/
structure MapParams where
  location : Option String := none
  stops : Option (List String) := none
  accommodationCosts : Option (List ℚ) := none
  dates : Option (List String) := none
  travelMode : Option TravelMode := none
  hotelNames : Option (List String) := none
deriving DecidableEq

/-- Requests issued to the external mapping SDK. -/
inductive MapQueryEffect where
  | geocodeRequest (query : String)
  | directionsRequest (stops : List String) (accommodationCosts : Option (List ℚ))
      (dates : Option (List String)) (travelMode : Option TravelMode)
      (hotelNames : Option (List String))
deriving DecidableEq

/-- The stops branch of `handleMapQuery` (src/map_app.ts lines 965–974):
with at least two stops, the itinerary tab is activated and a directions
request is issued; otherwise nothing happens. -/
def handleMapQueryStops (st : AppState) (params : MapParams) :
    AppState × List MapQueryEffect :=
  match params.stops with
  | some stops =>
    if 2 ≤ stops.length then
      ({ st with activeRightSidebarTab := SidebarTab.itinerary },
        [MapQueryEffect.directionsRequest stops params.accommodationCosts params.dates
          params.travelMode params.hotelNames])
    else (st, [])
  | none => (st, [])

/-- `handleMapQuery` (src/map_app.ts lines 962–975).  A truthy
`params.location` (present and non-empty) triggers a geocoding view
request; otherwise the stops branch runs. -/
def handleMapQuery (st : AppState) (params : MapParams) :
    AppState × List MapQueryEffect :=
  match params.location with
  | some loc =>
    if loc ≠ "" then (st, [MapQueryEffect.geocodeRequest loc])
    else handleMapQueryStops st params
  | none => handleMapQueryStops st params

/-! ## Animation loop semantics (src/map_app.ts `_runAnimationLoop`) -/

/-- The per-leg loop of `_runAnimationLoop` (src/map_app.ts lines
551–560).  `env t` is the pair `(currentAnimationId, animationSpeed)`
observed at logical time `t`; time advances by one at each `await`.
Before drawing each leg the loop compares the captured `animationId` with
the current one and checks the speed; on mismatch it returns immediately
(`false` = the enclosing function returned early).  The returned list
holds the times at which a polyline was drawn. -/
def legLoopDraws (animationId : ℤ) (env : ℕ → ℤ × ℤ) : ℕ → ℕ → List ℕ × Bool
  | _, 0 => ([], true)
  | t, n + 1 =>
    if (env t).1 ≠ animationId ∨ (env t).2 = 100 then ([], false)
    else
      let rest := legLoopDraws animationId env (t + 1) n
      (t :: rest.1, rest.2)

/-- `_runAnimationLoop` (src/map_app.ts lines 537–566): guard at entry
(line 542), the per-leg loop, and the reschedule guard (line 563), which
restarts the loop only while the captured id is still current and the
speed is below 100.  `fuel` bounds the number of iterations so that the
(externally cancelled) infinite loop is a total function. -/
def runAnimationLoop (animationId : ℤ) (legCount : ℕ) (env : ℕ → ℤ × ℤ) :
    ℕ → ℕ → List ℕ
  | _, 0 => []
  | t, fuel + 1 =>
    if (env t).1 ≠ animationId ∨ (env t).2 = 100 then []
    else
      let pass := legLoopDraws animationId env t legCount
      if pass.2 then
        pass.1 ++
          (if (env (t + legCount)).1 = animationId ∧ (env (t + legCount)).2 < 100 then
            runAnimationLoop animationId legCount env (t + legCount) fuel
          else [])
      else pass.1

/-! ## Specification-side definitions and concrete fixtures -/

/-- Specification reading of one duration component: the count, the unit,
and an `s` exactly when the count exceeds 1. -/
def pluralizeSpec (unit : String) (count : ℕ) : String :=
  natStr count ++ " " ++ unit ++ (if count > 1 then "s" else "")

/-- Specification reading of the duration decomposition: only the
non-zero components, in the order days, hours, minutes, with
`d = ⌊s / 86400⌋`, `h = ⌊(s mod 86400) / 3600⌋`, `m = ⌊(s mod 3600) / 60⌋`. -/
def durationComponentsSpec (totalSeconds : ℕ) : List String :=
  let days := totalSeconds / 86400
  let hours := totalSeconds % 86400 / 3600
  let minutes := totalSeconds % 3600 / 60
  (if 0 < days then [pluralizeSpec "day" days] else []) ++
  (if 0 < hours then [pluralizeSpec "hour" hours] else []) ++
  (if 0 < minutes then [pluralizeSpec "min" minutes] else [])

/-- Words separated by single spaces. -/
def joinSpace : List String → String
  | [] => ""
  | [s] => s
  | s :: rest => s ++ " " ++ joinSpace rest

/-- The invariant on the tour state: saved view ids are pairwise distinct
and strictly below `nextViewId`. -/
def TourInv (st : AppState) : Prop :=
  (st.savedViews.map (fun v => v.id)).Nodup ∧
  ∀ v ∈ st.savedViews, v.id < st.nextViewId

/-- All listed times lie strictly below the bound. -/
def allBelow (times : List ℕ) (bound : ℕ) : Bool :=
  times.all (fun t => decide (t < bound))

/-- The initial component state (field initializers of src/map_app.ts
lines 83–111). -/
def initialAppState : AppState :=
  { itineraryData := none, activeRightSidebarTab := SidebarTab.itinerary,
    routePolylines := 0, stopMarkers := 0, hasMarker := false, savedViews := [],
    playbackDelay := 3, playbackFlyoverTime := 2, loopTour := false,
    isPlayingTour := false, isSavingView := false, nextViewId := 0,
    draggedItemId := none, editingViewId := none, addStopsToTourToggle := false,
    addLegsToTourToggle := false, animationSpeed := 75, mpg := 20 }

/-- A date oracle that never parses (every date is invalid). -/
def dateOracleNone : String → Option String := fun _ => none

/-- A parseFloat oracle that always yields NaN. -/
def floatOracleNone : String → Option ℚ := fun _ => none

/-- A small concrete itinerary table used to exercise the parser. -/
def mdSample : String :=
  "| # | Dates | Stop | Address | A | B | C | Rate |\n|---|---|---|---|---|---|---|---|\n| 1 | — | **Paris – START | — | x | y | z | — |\n| 2 | — | Lyon | — | x | y | z | — |"

def viewA : MapView :=
  { id := 0, name := "A", centerLat := 1, centerLng := 2, centerAltitude := 0,
    heading := 0, tilt := 45, range := 2000, type := ViewType.custom,
    itineraryIndex := -1 }

def viewB : MapView :=
  { id := 1, name := "B", centerLat := 3, centerLng := 4, centerAltitude := 0,
    heading := 0, tilt := 45, range := 2000, type := ViewType.custom,
    itineraryIndex := -1 }

def viewC : MapView :=
  { id := 2, name := "C", centerLat := 5, centerLng := 6, centerAltitude := 0,
    heading := 0, tilt := 45, range := 2000, type := ViewType.custom,
    itineraryIndex := -1 }

/-- A view carrying a negative id (the `MapView.id` field is an arbitrary
JavaScript number). -/
def negView : MapView :=
  { id := -1, name := "N", centerLat := 1, centerLng := 2, centerAltitude := 0,
    heading := 0, tilt := 45, range := 2000, type := ViewType.custom,
    itineraryIndex := -1 }

/-- A state holding three saved views, with view `A` being dragged. -/
def dragState : AppState :=
  { initialAppState with
    savedViews := [viewA, viewB, viewC], nextViewId := 3, draggedItemId := some 0 }

/-- A state whose single saved view has a negative id. -/
def negIdState : AppState :=
  { initialAppState with savedViews := [negView] }

/-- A concrete camera view. -/
def camW : CamView :=
  { lat := 10, lng := 20, altitude := 0, heading := 0, tilt := 67.5, range := 2000 }

/-- Map params holding a single stop and no location. -/
def paramsOneStop : MapParams := { stops := some ["Paris"] }

/-- An environment for the animation loop: the animation id is bumped
from 5 to 6 at time 3, at speed 50 throughout. -/
def envW : ℕ → ℤ × ℤ := fun t => if t < 3 then (5, 50) else (6, 50)

/-! ## Helper lemmas -/

theorem foldl_add_eq {α M : Type*} [AddCommMonoid M] (f : α → M) (l : List α) (a : M) :
    l.foldl (fun sum x => sum + f x) a = a + (l.map f).sum := by
  induction l generalizing a with
  | nil => simp
  | cons h t ih => simp [ih, add_assoc]

/-! ## Claim C1 -/

/-- Claim C1: after a successful directions response, the itinerary
totals are sums over the legs — `totalDistance` is the sum of the legs'
distance values in meters, `totalAccommodationCost` is the sum of the
provided accommodation costs (0 when absent), and `totalFuelCost` is the
sum over the legs of `(distance in miles / mpg) * 3.5` for DRIVING and 0
for every other mode, with miles = meters * 0.000621371. -/
theorem itinerary_totals_are_sums (legs : List DirLeg)
    (accommodationCosts : Option (List ℚ)) (travelMode : Option TravelMode) (mpg : ℚ) :
    (buildItineraryTotals legs accommodationCosts travelMode mpg).totalDistance =
      (legs.map (fun leg => leg.distanceValue)).sum ∧
    (buildItineraryTotals legs accommodationCosts travelMode mpg).totalAccommodationCost =
      (match accommodationCosts with
       | some costs => costs.sum
       | none => 0) ∧
    (buildItineraryTotals legs accommodationCosts travelMode mpg).totalFuelCost =
      (legs.map (fun leg =>
        if travelMode.getD TravelMode.DRIVING = TravelMode.DRIVING then
          leg.distanceValue * METERS_TO_MILES / mpg * DEFAULT_GAS_PRICE_PER_GALLON
        else 0)).sum := by
  refine ⟨?_, ?_, ?_⟩
  · simp [buildItineraryTotals, foldl_add_eq]
  · cases accommodationCosts with
    | none => simp [buildItineraryTotals]
    | some costs => simpa [buildItineraryTotals] using foldl_add_eq (fun c => c) costs 0
  · simp [buildItineraryTotals, foldl_add_eq, legFuelCost]

/-! ## Claim C4 -/

/-- Claim C4: with `n ≥ 1` legs and slider speed `s ∈ [0, 99]`, the
per-leg delay equals `(2000n - (s/99)(2000n - 1000)) / n`, the cycle
duration is `2000n` at `s = 0`, `1000` at `s = 99`, and strictly
decreasing in the speed; one loop pass issues that identical delay once
per leg; and at speed 100 the route is drawn statically instead of
animated. -/
theorem animation_delay_formula (n : ℕ) (hn : 1 ≤ n) (s s₁ s₂ : ℚ) (k : ℤ)
    (h0 : 0 ≤ s) (h99 : s ≤ 99) (h12 : s₁ < s₂) (hk0 : 0 ≤ k) (hk99 : k ≤ 99) :
    delayPerLeg n s = (2000 * n - s / 99 * (2000 * n - 1000)) / n ∧
    animTotalDuration n 0 = 2000 * n ∧
    animTotalDuration n 99 = 1000 ∧
    animTotalDuration n s₂ < animTotalDuration n s₁ ∧
    runAnimationLoopDelays n (delayPerLeg n s) = List.replicate n (delayPerLeg n s) ∧
    routeDrawMode 100 = RouteDrawMode.staticRoute ∧
    routeDrawMode k = RouteDrawMode.animated := by
  have hn' : (1 : ℚ) ≤ (n : ℚ) := by exact_mod_cast hn
  have hposn : 0 < n := by omega
  refine ⟨?_, ?_, ?_, ?_, ?_, ?_, ?_⟩
  · simp [delayPerLeg, hposn, animTotalDuration]
  · simp [animTotalDuration]
  · have h99 : (99 : ℚ) / 99 = 1 := by norm_num
    rw [animTotalDuration, h99]
    ring
  · simp only [animTotalDuration]
    have hX : (0 : ℚ) < 2000 * (n : ℚ) - 1000 := by linarith
    have key : 0 < (s₂ - s₁) / 99 * (2000 * (n : ℚ) - 1000) :=
      mul_pos (div_pos (sub_pos.mpr h12) (by norm_num)) hX
    linarith [key]
  · simp [runAnimationLoopDelays, List.map_const']
  · simp [routeDrawMode]
  · have h1 : ¬(k = 100) := by omega
    have h2 : ¬(100 ≤ k) := by omega
    simp [routeDrawMode, h1, h2]

/-- Witness for claim C4 at 2 legs, speed 50, speeds 10 < 20 and slider
value 42. -/
theorem animation_delay_formula_witness :
    delayPerLeg 2 50 = (2000 * 2 - 50 / 99 * (2000 * 2 - 1000)) / 2 ∧
    animTotalDuration 2 0 = 2000 * 2 ∧
    animTotalDuration 2 99 = 1000 ∧
    animTotalDuration 2 20 < animTotalDuration 2 10 ∧
    runAnimationLoopDelays 2 (delayPerLeg 2 50) = List.replicate 2 (delayPerLeg 2 50) ∧
    routeDrawMode 100 = RouteDrawMode.staticRoute ∧
    routeDrawMode 42 = RouteDrawMode.animated :=
  animation_delay_formula 2 (by norm_num) 50 10 20 42 (by norm_num) (by norm_num)
    (by norm_num) (by norm_num) (by norm_num)

/-! ## Claim C8 -/

/-- Claim C8: when `params.location` is absent and `params.stops` is
absent or holds fewer than two entries, `handleMapQuery` issues no
request and leaves the whole component state unchanged. -/
theorem handleMapQuery_noop (st : AppState) (params : MapParams)
    (hloc : params.location = none)
    (hstops : ∀ ss, params.stops = some ss → ss.length < 2) :
    handleMapQuery st params = (st, []) := by
  cases hs : params.stops with
  | none => simp [handleMapQuery, hloc, handleMapQueryStops, hs]
  | some ss =>
    have hlt := hstops ss hs
    have h2 : ¬(2 ≤ ss.length) := by omega
    simp [handleMapQuery, hloc, handleMapQueryStops, hs, h2]

/-- Witness for claim C8: a query with one stop and no location changes
nothing. -/
theorem handleMapQuery_noop_witness :
    handleMapQuery initialAppState paramsOneStop = (initialAppState, []) :=
  handleMapQuery_noop initialAppState paramsOneStop rfl
    (fun ss h => by
      have hss : ss = ["Paris"] := by
        simpa [paramsOneStop] using h.symm
      simp [hss])

/-! ## Claim C7 -/

theorem perm_cons_eraseIdx {α : Type*} {l : List α} {i : ℕ} {a : α}
    (h : l[i]? = some a) : (a :: l.eraseIdx i).Perm l := by
  induction l generalizing i with
  | nil => simp at h
  | cons b t ih =>
    cases i with
    | zero =>
      simp only [List.getElem?_cons_zero, Option.some.injEq] at h
      subst h
      simp [List.eraseIdx_cons_zero]
    | succ n =>
      rw [List.getElem?_cons_succ] at h
      rw [List.eraseIdx_cons_succ]
      exact (List.Perm.swap b a _).trans ((ih h).cons b)

theorem findIdx?_some_lt {α : Type*} {p : α → Bool} {l : List α} {i : ℕ}
    (h : l.findIdx? p = some i) : i < l.length :=
  (List.findIdx?_eq_some_iff_findIdx_eq.1 h).1

/-- In every branch, `handleDrop` permutes the saved views and leaves
`nextViewId` alone. -/
theorem handleDrop_savedViews_perm (st : AppState) (dropTargetId : ℚ) :
    ((handleDrop st dropTargetId).savedViews).Perm st.savedViews ∧
    (handleDrop st dropTargetId).nextViewId = st.nextViewId := by
  cases hd : st.draggedItemId with
  | none => simp [handleDrop, hd]
  | some dId =>
    by_cases he : dId = dropTargetId
    · simp [handleDrop, hd, he]
    · cases hi : st.savedViews.findIdx? (fun v => decide (v.id = dId)) with
      | none => simp [handleDrop, hd, he, hi]
      | some di =>
        cases ht : st.savedViews.findIdx? (fun v => decide (v.id = dropTargetId)) with
        | none => simp [handleDrop, hd, he, hi, ht]
        | some ti =>
          cases hg : st.savedViews[di]? with
          | none => simp [handleDrop, hd, he, hi, ht, hg]
          | some draggedItem =>
            have hdi : di < st.savedViews.length := findIdx?_some_lt hi
            have hti : ti < st.savedViews.length := findIdx?_some_lt ht
            have hlen : ti ≤ (st.savedViews.eraseIdx di).length := by
              rw [List.length_eraseIdx, if_pos hdi]
              omega
            refine ⟨?_, ?_⟩
            · simp only [handleDrop, hd, he, if_neg he, hi, ht, hg]
              exact (List.perm_insertIdx draggedItem _ hlen).trans (perm_cons_eraseIdx hg)
            · simp [handleDrop, hd, he, hi, ht, hg]

/-- Claim C7: dropping a dragged view onto a distinct target view that is
present in the list removes the dragged view at its index and re-inserts
it at the target's former index, a permutation of the previous list;
a missing drag id, identical ids, or an absent id leaves the saved views
unchanged. -/
theorem handleDrop_spec (st : AppState) (dropTargetId dId : ℚ) (di ti : ℕ)
    (draggedItem : MapView) :
    (st.draggedItemId = none → handleDrop st dropTargetId = st) ∧
    (st.draggedItemId = some dropTargetId → handleDrop st dropTargetId = st) ∧
    (st.draggedItemId = some dId →
      (st.savedViews.findIdx? (fun v => decide (v.id = dId)) = none ∨
        st.savedViews.findIdx? (fun v => decide (v.id = dropTargetId)) = none) →
      handleDrop st dropTargetId = st) ∧
    (st.draggedItemId = some dId → dId ≠ dropTargetId →
      st.savedViews.findIdx? (fun v => decide (v.id = dId)) = some di →
      st.savedViews.findIdx? (fun v => decide (v.id = dropTargetId)) = some ti →
      st.savedViews[di]? = some draggedItem →
      handleDrop st dropTargetId =
        { st with savedViews := (st.savedViews.eraseIdx di).insertIdx ti draggedItem } ∧
      ((handleDrop st dropTargetId).savedViews).Perm st.savedViews) := by
  refine ⟨?_, ?_, ?_, ?_⟩
  · intro hd
    simp [handleDrop, hd]
  · intro hd
    simp [handleDrop, hd]
  · intro hd habs
    by_cases he : dId = dropTargetId
    · simp [handleDrop, hd, he]
    · cases hi' : st.savedViews.findIdx? (fun v => decide (v.id = dId)) with
      | none => simp [handleDrop, hd, he, hi']
      | some d' =>
        cases ht' : st.savedViews.findIdx? (fun v => decide (v.id = dropTargetId)) with
        | none => simp [handleDrop, hd, he, hi', ht']
        | some t' =>
          rcases habs with hnone | hnone
          · rw [hi'] at hnone
            exact absurd hnone (by simp)
          · rw [ht'] at hnone
            exact absurd hnone (by simp)
  · intro hd he hi ht hg
    refine ⟨?_, (handleDrop_savedViews_perm st dropTargetId).1⟩
    simp only [handleDrop, hd, if_neg he, hi, ht, hg]

/-- Witness for claim C7: dragging view id 0 onto view id 2 in a
three-view tour moves it to the back. -/
theorem handleDrop_spec_witness :
    handleDrop dragState 2 =
      { dragState with
        savedViews := (dragState.savedViews.eraseIdx 0).insertIdx 2 viewA } ∧
    ((handleDrop dragState 2).savedViews).Perm dragState.savedViews :=
  (handleDrop_spec dragState 2 0 0 2 viewA).2.2.2 (by decide) (by decide)
    (by decide) (by decide) (by decide)

/-! ## Claim C9 -/

theorem set_of_getElem?_eq {α : Type*} {l : List α} {i : ℕ} {a : α}
    (h : l[i]? = some a) : l.set i a = l := by
  induction l generalizing i with
  | nil => simp at h
  | cons b t ih =>
    cases i with
    | zero =>
      simp only [List.getElem?_cons_zero, Option.some.injEq] at h
      subst h
      simp
    | succ n =>
      rw [List.getElem?_cons_succ] at h
      simp [ih h]

theorem ids_of_enum_views (src : List (String × CamView)) (base : ℚ) (vt : ViewType)
    (f : ℕ → ℚ) :
    ((src.enum.map (fun p => mkView (base + p.1) p.2.1 p.2.2 vt (f p.1))).map
      (fun v => v.id)) = (List.range src.length).map (fun i : ℕ => base + (i : ℚ)) := by
  rw [List.map_map]
  have h1 : ((fun v : MapView => v.id) ∘
      (fun p : ℕ × (String × CamView) => mkView (base + p.1) p.2.1 p.2.2 vt (f p.1))) =
      ((fun i : ℕ => base + (i : ℚ)) ∘ Prod.fst) := rfl
  rw [h1, ← List.map_map, List.enum_map_fst]

/-- Appending a batch of views whose ids are exactly
`nid, nid + 1, …, nid + (k-1)` (in any order) preserves distinctness and
bounds every id by `nid + k`. -/
theorem invariant_extend (views newViews : List MapView) (nid : ℚ) (k : ℕ)
    (hn : (views.map (fun v => v.id)).Nodup) (hb : ∀ v ∈ views, v.id < nid)
    (hids : (newViews.map (fun v => v.id)).Perm
      ((List.range k).map (fun i : ℕ => nid + (i : ℚ)))) :
    ((views ++ newViews).map (fun v => v.id)).Nodup ∧
    ∀ v ∈ views ++ newViews, v.id < nid + (k : ℚ) := by
  have hrangeN : ((List.range k).map (fun i : ℕ => nid + (i : ℚ))).Nodup := by
    refine List.Nodup.map ?_ (List.nodup_range k)
    intro i j hij
    have hij' : nid + (i : ℚ) = nid + (j : ℚ) := hij
    have hij2 : (i : ℚ) = (j : ℚ) := by linarith
    exact_mod_cast hij2
  constructor
  · rw [List.map_append, List.nodup_append]
    refine ⟨hn, hids.symm.nodup hrangeN, ?_⟩
    intro x hx hx2
    obtain ⟨v, hv, hvx⟩ := List.exists_of_mem_map hx
    have hlt : x < nid := hvx ▸ hb v hv
    have hx3 : x ∈ (List.range k).map (fun i : ℕ => nid + (i : ℚ)) := hids.mem_iff.1 hx2
    obtain ⟨i, _, hix⟩ := List.exists_of_mem_map hx3
    have : (0 : ℚ) ≤ (i : ℚ) := by positivity
    rw [← hix] at hlt
    linarith
  · intro v hv
    have hk : (0 : ℚ) ≤ (k : ℚ) := by positivity
    rcases List.mem_append.1 hv with h | h
    · have := hb v h
      linarith
    · have hmem : v.id ∈ newViews.map (fun v => v.id) := List.mem_map_of_mem _ h
      have hmem2 := hids.mem_iff.1 hmem
      obtain ⟨i, hi, heq⟩ := List.exists_of_mem_map hmem2
      rw [List.mem_range] at hi
      have hik : (i : ℚ) < (k : ℚ) := by exact_mod_cast hi
      rw [← heq]
      linarith

theorem addFromItineraryToTour_inv (st : AppState)
    (itin : Option (List (String × CamView) × List (String × CamView)))
    (hinv : TourInv st) : TourInv (addFromItineraryToTour st itin) := by
  obtain ⟨hn, hb⟩ := hinv
  cases itin with
  | none => exact ⟨hn, hb⟩
  | some src =>
    obtain ⟨stopSrc, legSrc⟩ := src
    cases hS : st.addStopsToTourToggle with
    | false =>
      cases hL : st.addLegsToTourToggle with
      | false =>
        simp only [addFromItineraryToTour, hS, hL]
        exact ⟨hn, hb⟩
      | true =>
        simp only [addFromItineraryToTour, hS, hL]
        norm_num
        exact invariant_extend st.savedViews _ st.nextViewId legSrc.length hn hb
          (List.Perm.of_eq
            (ids_of_enum_views legSrc st.nextViewId ViewType.leg (fun i => (i : ℚ) * 2 + 1)))
    | true =>
      cases hL : st.addLegsToTourToggle with
      | false =>
        simp only [addFromItineraryToTour, hS, hL]
        norm_num
        exact invariant_extend st.savedViews _ st.nextViewId stopSrc.length hn hb
          (List.Perm.of_eq
            (ids_of_enum_views stopSrc st.nextViewId ViewType.stop (fun i => (i : ℚ) * 2)))
      | true =>
        simp only [addFromItineraryToTour, hS, hL]
        norm_num
        have heq : ((stopSrc.enum.map (fun p =>
              mkView (st.nextViewId + p.1) p.2.1 p.2.2 ViewType.stop ((p.1 : ℚ) * 2)) ++
            legSrc.enum.map (fun p =>
              mkView (st.nextViewId + (stopSrc.length : ℚ) + p.1) p.2.1 p.2.2 ViewType.leg
                ((p.1 : ℚ) * 2 + 1))).map (fun v => v.id)) =
            (List.range (stopSrc.length + legSrc.length)).map
              (fun i : ℕ => st.nextViewId + (i : ℚ)) := by
          rw [List.map_append,
            ids_of_enum_views stopSrc st.nextViewId ViewType.stop (fun i => (i : ℚ) * 2),
            ids_of_enum_views legSrc (st.nextViewId + (stopSrc.length : ℚ)) ViewType.leg
              (fun i => (i : ℚ) * 2 + 1),
            List.range_add, List.map_append, List.map_map]
          congr 1
          refine List.map_congr_left ?_
          intro x _
          simp only [Function.comp]
          push_cast
          ring
        have hperm := (List.Perm.map (fun v : MapView => v.id)
            (List.mergeSort_perm (stopSrc.enum.map (fun p =>
                mkView (st.nextViewId + p.1) p.2.1 p.2.2 ViewType.stop ((p.1 : ℚ) * 2)) ++
              legSrc.enum.map (fun p =>
                mkView (st.nextViewId + (stopSrc.length : ℚ) + p.1) p.2.1 p.2.2 ViewType.leg
                  ((p.1 : ℚ) * 2 + 1)))
              (fun a b => decide (a.itineraryIndex ≤ b.itineraryIndex)))).trans
          (List.Perm.of_eq heq)
        have key := invariant_extend st.savedViews _ st.nextViewId
          (stopSrc.length + legSrc.length) hn hb hperm
        refine ⟨key.1, ?_⟩
        intro v hv
        have hvk := key.2 v hv
        push_cast at hvk ⊢
        linarith

/-- The invariant transfers along any operation that permutes the view
ids and keeps `nextViewId`. -/
theorem TourInv_of_perm (st st' : AppState)
    (hperm : (st'.savedViews.map (fun v => v.id)).Perm
      (st.savedViews.map (fun v => v.id)))
    (hnid : st'.nextViewId = st.nextViewId) (hinv : TourInv st) : TourInv st' := by
  obtain ⟨hn, hb⟩ := hinv
  refine ⟨hperm.symm.nodup hn, ?_⟩
  intro v hv
  have hmem : v.id ∈ st'.savedViews.map (fun v => v.id) := List.mem_map_of_mem _ hv
  have hmem2 := hperm.mem_iff.1 hmem
  obtain ⟨w, hw, heqw⟩ := List.exists_of_mem_map hmem2
  rw [hnid, ← heqw]
  exact hb w hw

/-- `saveViewName` never changes the ids or `nextViewId`. -/
theorem saveViewName_ids (st : AppState) (renameId : ℚ) (newName : String) :
    (saveViewName st renameId newName).savedViews.map (fun v => v.id) =
      st.savedViews.map (fun v => v.id) ∧
    (saveViewName st renameId newName).nextViewId = st.nextViewId := by
  by_cases he : st.editingViewId ≠ some renameId
  · simp [saveViewName, he]
  · cases hf : st.savedViews.findIdx? (fun v => decide (v.id = renameId)) with
    | none => simp [saveViewName, he, hf]
    | some i =>
      by_cases ht : jsTrim newName ≠ ""
      · cases hg : st.savedViews[i]? with
        | none => simp [saveViewName, he, hf, ht, hg]
        | some v =>
          have hgid : (st.savedViews.map (fun v => v.id))[i]? = some v.id := by
            rw [List.getElem?_map, hg]
            rfl
          refine ⟨?_, by simp [saveViewName, he, hf, ht, hg]⟩
          simp only [saveViewName, if_neg he, hf, if_pos ht, hg, List.map_set]
          exact set_of_getElem?_eq hgid
      · simp [saveViewName, he, hf, ht]

/-- Claim C9: saveCurrentView, _addFromItineraryToTour, deleteView,
handleDrop, saveViewName and _clearTourViews all preserve the invariant
that saved view ids are pairwise distinct and strictly below
`nextViewId`; new views take the current `nextViewId` which is then
incremented, deletion/reordering/renaming never change ids, and clearing
a non-empty tour resets the list to empty and `nextViewId` to 0. -/
theorem tour_ops_preserve_id_invariant (st : AppState) (cam : CamView) (name : String)
    (itin : Option (List (String × CamView) × List (String × CamView)))
    (idToDelete dropTargetId renameId : ℚ) (newName : String)
    (hinv : TourInv st) :
    TourInv (saveCurrentView st cam name) ∧
    (saveCurrentView st cam name).savedViews =
      st.savedViews ++ [mkView st.nextViewId name cam ViewType.custom (-1)] ∧
    (saveCurrentView st cam name).nextViewId = st.nextViewId + 1 ∧
    TourInv (addFromItineraryToTour st itin) ∧
    TourInv (deleteView st idToDelete) ∧
    ((deleteView st idToDelete).savedViews.map (fun v => v.id)).Sublist
      (st.savedViews.map (fun v => v.id)) ∧
    TourInv (handleDrop st dropTargetId) ∧
    ((handleDrop st dropTargetId).savedViews.map (fun v => v.id)).Perm
      (st.savedViews.map (fun v => v.id)) ∧
    TourInv (saveViewName st renameId newName) ∧
    (saveViewName st renameId newName).savedViews.map (fun v => v.id) =
      st.savedViews.map (fun v => v.id) ∧
    TourInv (clearTourViews st) ∧
    (st.savedViews ≠ [] →
      clearTourViews st =
        { st with savedViews := [], nextViewId := 0, isPlayingTour := false }) := by
  obtain ⟨hn, hb⟩ := hinv
  have hdel_sub : ((deleteView st idToDelete).savedViews.map (fun v => v.id)).Sublist
      (st.savedViews.map (fun v => v.id)) :=
    List.Sublist.map _ (List.filter_sublist st.savedViews)
  have hdrop := handleDrop_savedViews_perm st dropTargetId
  have hdrop_ids := hdrop.1.map (fun v => v.id)
  have hrename := saveViewName_ids st renameId newName
  refine ⟨?_, rfl, rfl, addFromItineraryToTour_inv st itin ⟨hn, hb⟩, ⟨?_, ?_⟩,
    hdel_sub, ?_, hdrop_ids, ?_, hrename.1, ?_, ?_⟩
  · -- saveCurrentView keeps the invariant
    constructor
    · show (List.map (fun v => v.id)
        (st.savedViews ++ [mkView st.nextViewId name cam ViewType.custom (-1)])).Nodup
      rw [List.map_append, List.nodup_append]
      refine ⟨hn, by simp, ?_⟩
      intro x hx hx2
      obtain ⟨v, hv, hvx⟩ := List.exists_of_mem_map hx
      have hlt : x < st.nextViewId := hvx ▸ hb v hv
      have hxeq : x = st.nextViewId := by
        simpa [mkView] using hx2
      rw [hxeq] at hlt
      exact absurd hlt (lt_irrefl _)
    · intro v hv
      rcases List.mem_append.1 hv with h | h
      · have := hb v h
        show v.id < st.nextViewId + 1
        linarith
      · have : v = mkView st.nextViewId name cam ViewType.custom (-1) := by simpa using h
        rw [this]
        show st.nextViewId < st.nextViewId + 1
        linarith
  · -- deleteView keeps distinctness
    exact List.Nodup.sublist hdel_sub hn
  · -- deleteView keeps the bound
    intro v hv
    exact hb v (List.mem_of_mem_filter hv)
  · exact TourInv_of_perm st _ hdrop_ids hdrop.2 ⟨hn, hb⟩
  · exact TourInv_of_perm st _ (List.Perm.of_eq hrename.1) hrename.2 ⟨hn, hb⟩
  · -- clearTourViews keeps the invariant
    by_cases hz : st.savedViews.length = 0
    · simpa [clearTourViews, hz] using ⟨hn, hb⟩
    · refine ⟨?_, ?_⟩ <;> simp [clearTourViews, hz]
  · intro hne
    have hz : ¬(st.savedViews.length = 0) := by
      simpa [List.length_eq_zero] using hne
    simp [clearTourViews, hz]

/-- Witness for claim C9 on a concrete three-view state. -/
theorem tour_ops_preserve_id_invariant_witness :
    TourInv (saveCurrentView dragState camW "Lake") ∧
    (saveCurrentView dragState camW "Lake").savedViews =
      dragState.savedViews ++ [mkView dragState.nextViewId "Lake" camW ViewType.custom (-1)] ∧
    (saveCurrentView dragState camW "Lake").nextViewId = dragState.nextViewId + 1 ∧
    TourInv (addFromItineraryToTour dragState none) ∧
    TourInv (deleteView dragState 1) ∧
    ((deleteView dragState 1).savedViews.map (fun v => v.id)).Sublist
      (dragState.savedViews.map (fun v => v.id)) ∧
    TourInv (handleDrop dragState 2) ∧
    ((handleDrop dragState 2).savedViews.map (fun v => v.id)).Perm
      (dragState.savedViews.map (fun v => v.id)) ∧
    TourInv (saveViewName dragState 0 "Z") ∧
    (saveViewName dragState 0 "Z").savedViews.map (fun v => v.id) =
      dragState.savedViews.map (fun v => v.id) ∧
    TourInv (clearTourViews dragState) ∧
    (dragState.savedViews ≠ [] →
      clearTourViews dragState =
        { dragState with savedViews := [], nextViewId := 0, isPlayingTour := false }) :=
  tour_ops_preserve_id_invariant dragState camW "Lake" none 1 2 0 "Z"
    ⟨by decide, by decide⟩

/-! ## Claim C10 -/

/-- The per-leg loop never draws at or after the time from which the
captured animation id is stale (or the speed is 100). -/
theorem legLoopDraws_lt (animationId : ℤ) (env : ℕ → ℤ × ℤ) (cutoff : ℕ)
    (hcut : ∀ u, cutoff ≤ u → (env u).1 ≠ animationId ∨ (env u).2 = 100) :
    ∀ n t, ∀ s ∈ (legLoopDraws animationId env t n).1, s < cutoff := by
  intro n
  induction n with
  | zero =>
    intro t s hs
    simp [legLoopDraws] at hs
  | succ m ih =>
    intro t s hs
    by_cases hbad : (env t).1 ≠ animationId ∨ (env t).2 = 100
    · simp [legLoopDraws, hbad] at hs
    · have ht : t < cutoff := by
        by_contra hge
        exact hbad (hcut t (by omega))
      simp only [legLoopDraws, if_neg hbad] at hs
      rcases List.mem_cons.1 hs with rfl | hs2
      · exact ht
      · exact ih (t + 1) s hs2

/-- The animation loop never draws at or after the time from which the
captured animation id is stale (or the speed is 100). -/
theorem runAnimationLoop_lt (animationId : ℤ) (env : ℕ → ℤ × ℤ) (legCount cutoff : ℕ)
    (hcut : ∀ u, cutoff ≤ u → (env u).1 ≠ animationId ∨ (env u).2 = 100) :
    ∀ fuel t, ∀ s ∈ runAnimationLoop animationId legCount env t fuel, s < cutoff := by
  intro fuel
  induction fuel with
  | zero =>
    intro t s hs
    simp [runAnimationLoop] at hs
  | succ m ih =>
    intro t s hs
    by_cases hbad : (env t).1 ≠ animationId ∨ (env t).2 = 100
    · simp [runAnimationLoop, hbad] at hs
    · simp only [runAnimationLoop, if_neg hbad] at hs
      by_cases hp : (legLoopDraws animationId env t legCount).2 = true
      · rw [if_pos hp] at hs
        rcases List.mem_append.1 hs with h1 | h2
        · exact legLoopDraws_lt animationId env cutoff hcut legCount t s h1
        · by_cases hr : (env (t + legCount)).1 = animationId ∧ (env (t + legCount)).2 < 100
          · rw [if_pos hr] at h2
            exact ih (t + legCount) s h2
          · rw [if_neg hr] at h2
            simp at h2
      · rw [if_neg hp] at hs
        exact legLoopDraws_lt animationId env cutoff hcut legCount t s hs

/-- Claim C10: once `currentAnimationId` has moved past a loop's captured
id (or the speed reached 100) — modelled by the environment reporting a
different id or speed 100 from time `cutoff` on — no polyline is drawn at
or after `cutoff`; and whenever the entry check observes a stale id or
speed 100, the iteration returns immediately with no draws and no
rescheduling. -/
theorem animation_loop_cancellation (animationId : ℤ) (env : ℕ → ℤ × ℤ)
    (legCount t fuel cutoff s : ℕ)
    (hcut : ∀ u, cutoff ≤ u → (env u).1 ≠ animationId ∨ (env u).2 = 100)
    (hs : s ∈ runAnimationLoop animationId legCount env t fuel) :
    s < cutoff ∧
    ((env t).1 ≠ animationId ∨ (env t).2 = 100 →
      runAnimationLoop animationId legCount env t (fuel + 1) = [] ∧
      (legLoopDraws animationId env t (legCount + 1)).1 = [] ∧
      (legLoopDraws animationId env t (legCount + 1)).2 = false) := by
  refine ⟨runAnimationLoop_lt animationId env legCount cutoff hcut fuel t s hs, ?_⟩
  intro hbad
  refine ⟨?_, ?_, ?_⟩
  · simp [runAnimationLoop, hbad]
  · simp [legLoopDraws, hbad]
  · simp [legLoopDraws, hbad]

/-- Witness for claim C10: with the id bumped from 5 to 6 at time 3, the
loop on two legs draws only at times 0, 1 and 2. -/
theorem animation_loop_cancellation_witness :
    (2 : ℕ) < 3 ∧
    ((envW 0).1 ≠ 5 ∨ (envW 0).2 = 100 →
      runAnimationLoop 5 2 envW 0 3 = [] ∧
      (legLoopDraws 5 envW 0 3).1 = [] ∧
      (legLoopDraws 5 envW 0 3).2 = false) :=
  animation_loop_cancellation 5 envW 2 0 2 3 2
    (fun u hu => by
      left
      simp only [envW, if_neg (by omega : ¬u < 3)]
      decide)
    (by decide)

/-! ## Claim C6 -/

theorem validateViewEntry_encode (v : MapView) :
    validateViewEntry (encodeView v) = true := rfl

theorem validateTourFile_tourDoc (st : AppState) :
    validateTourFile (tourDoc st) = true := by
  show (st.savedViews.map encodeView).all validateViewEntry = true
  rw [List.all_eq_true]
  intro x hx
  obtain ⟨v, _, rfl⟩ := List.exists_of_mem_map hx
  exact validateViewEntry_encode v

theorem decodeView_encodeView (v : MapView) : decodeView (encodeView v) = some v := by
  cases v with
  | mk id name lat lng alt heading tilt range ty idx => cases ty <;> rfl

theorem mapM_decode_encode (l : List MapView) :
    decodeViews decodeView (l.map encodeView) = some l := by
  induction l with
  | nil => rfl
  | cons h t ih => simp [decodeViews, decodeView_encodeView, ih]

/-- Exporting a non-empty tour and re-importing the same document
restores the playback settings and the views exactly, and sets
`nextViewId` to `Math.max(...ids, 0) + 1`. -/
theorem roundtrip_aux (st st' : AppState) (hne : st.savedViews ≠ []) :
    exportTour st = some (tourDoc st) ∧
    validateTourFile (tourDoc st) = true ∧
    importTourData (tourDoc st) st' =
      some { st' with
        playbackDelay := st.playbackDelay,
        playbackFlyoverTime := st.playbackFlyoverTime,
        loopTour := st.loopTour,
        savedViews := st.savedViews,
        nextViewId := (st.savedViews.map (fun v => v.id)).foldl max 0 + 1,
        activeRightSidebarTab := SidebarTab.tour } := by
  have hval := validateTourFile_tourDoc st
  have h1 : getField (tourDoc st) "views" =
      some (JValue.jarr (st.savedViews.map encodeView)) := rfl
  have h2 : getField (tourDoc st) "playbackDelay" =
      some (JValue.jnum st.playbackDelay) := rfl
  have h3 : getField (tourDoc st) "playbackFlyoverTime" =
      some (JValue.jnum st.playbackFlyoverTime) := rfl
  have h4 : getField (tourDoc st) "loopTour" = some (JValue.jbool st.loopTour) := rfl
  refine ⟨?_, hval, ?_⟩
  · rw [exportTour, if_neg]
    simpa [List.length_eq_zero] using hne
  · simp only [importTourData, hval, h1, h2, h3, h4, mapM_decode_encode]
    norm_num

/-- Claim C6 (amended): export/import of a non-empty tour is a lossless
round-trip for the playback settings and the views, with `nextViewId`
set to one more than the larger of 0 and the largest imported view id
(`Math.max(...ids, 0) + 1`). -/
theorem tour_export_import_roundtrip (st st' : AppState) (hne : st.savedViews ≠ []) :
    exportTour st = some (tourDoc st) ∧
    validateTourFile (tourDoc st) = true ∧
    importTourData (tourDoc st) st' =
      some { st' with
        playbackDelay := st.playbackDelay,
        playbackFlyoverTime := st.playbackFlyoverTime,
        loopTour := st.loopTour,
        savedViews := st.savedViews,
        nextViewId := (st.savedViews.map (fun v => v.id)).foldl max 0 + 1,
        activeRightSidebarTab := SidebarTab.tour } :=
  roundtrip_aux st st' hne

/-- Witness for claim C6 on a concrete three-view tour. -/
theorem tour_export_import_roundtrip_witness :
    exportTour dragState = some (tourDoc dragState) ∧
    validateTourFile (tourDoc dragState) = true ∧
    importTourData (tourDoc dragState) initialAppState =
      some { initialAppState with
        playbackDelay := dragState.playbackDelay,
        playbackFlyoverTime := dragState.playbackFlyoverTime,
        loopTour := dragState.loopTour,
        savedViews := dragState.savedViews,
        nextViewId := (dragState.savedViews.map (fun v => v.id)).foldl max 0 + 1,
        activeRightSidebarTab := SidebarTab.tour } :=
  tour_export_import_roundtrip dragState initialAppState (by decide)

/-- Counterexample to claim C6 as stated: for a tour whose single view
has id -1, importing the exported document sets `nextViewId` to 1,
not to largest-id-plus-one, which would be 0. -/
theorem tour_roundtrip_counterexample :
    exportTour negIdState = some (tourDoc negIdState) ∧
    (importTourData (tourDoc negIdState) initialAppState).map (fun s => s.nextViewId) =
      some 1 ∧
    (negIdState.savedViews.map (fun v => v.id)).max? = some (-1) ∧
    (1 : ℚ) ≠ -1 + 1 := by
  have h := roundtrip_aux negIdState initialAppState (by decide)
  refine ⟨h.1, ?_, by decide, by norm_num⟩
  rw [h.2.2]
  have hmax : ((negIdState.savedViews.map (fun v => v.id)).foldl max 0 : ℚ) = 0 := by
    show (max 0 (-1 : ℚ)) = 0
    norm_num
  simp [hmax]

/-! ## Claim C2 -/

theorem rat_floor_eq_intFloor (q : ℚ) : Rat.floor q = ⌊q⌋ := by
  rw [Rat.floor_def]
  unfold Rat.floor
  split
  · rename_i h
    rw [h]
    simp
  · rfl

theorem jsRound_intCast (b : ℤ) : jsRound (b : ℚ) = b := by
  rw [jsRound, rat_floor_eq_intFloor, Int.floor_int_add]
  norm_num

theorem lerpChannel_zero (a b : ℤ) : lerpChannel a b 0 = a := by
  have h : (a : ℚ) + ((b : ℚ) - (a : ℚ)) * 0 = ((a : ℤ) : ℚ) := by push_cast; ring
  rw [lerpChannel, h, jsRound_intCast]

theorem lerpChannel_one (a b : ℤ) : lerpChannel a b 1 = b := by
  have h : (a : ℚ) + ((b : ℚ) - (a : ℚ)) * 1 = ((b : ℤ) : ℚ) := by push_cast; ring
  rw [lerpChannel, h, jsRound_intCast]

/-- The green-to-blue half: entry `i ≤ midPointIndex` of the spectrum. -/
theorem spectrum_getElem_first (n i : ℕ) (hn : 2 ≤ n) (hi : i ≤ (n - 1) / 2) :
    (generateColorSpectrum n)[i]? = some
      (rgbStr
        (lerpChannel 0 0
          (if (n - 1) / 2 = 0 then (1 : ℚ) else (i : ℚ) / (((n - 1) / 2 : ℕ) : ℚ)))
        (lerpChannel 255 0
          (if (n - 1) / 2 = 0 then (1 : ℚ) else (i : ℚ) / (((n - 1) / 2 : ℕ) : ℚ)))
        (lerpChannel 0 255
          (if (n - 1) / 2 = 0 then (1 : ℚ) else (i : ℚ) / (((n - 1) / 2 : ℕ) : ℚ)))) := by
  simp only [generateColorSpectrum, if_neg (show ¬n ≤ 1 by omega)]
  rw [List.getElem?_append_left (by
    simp only [List.length_map, List.length_range]
    omega)]
  rw [List.getElem?_map, List.getElem?_range (by omega)]
  rfl

/-- The blue-to-red half: entry `midPointIndex + k` of the spectrum for
`1 ≤ k ≤ secondHalfSteps`. -/
theorem spectrum_getElem_second (n k : ℕ) (hn : 2 ≤ n) (hk1 : 1 ≤ k)
    (hk2 : k ≤ n - 1 - (n - 1) / 2) :
    (generateColorSpectrum n)[(n - 1) / 2 + k]? = some
      (rgbStr
        (lerpChannel 0 255 ((k : ℚ) / ((n - 1 - (n - 1) / 2 : ℕ) : ℚ)))
        (lerpChannel 0 0 ((k : ℚ) / ((n - 1 - (n - 1) / 2 : ℕ) : ℚ)))
        (lerpChannel 255 0 ((k : ℚ) / ((n - 1 - (n - 1) / 2 : ℕ) : ℚ)))) := by
  simp only [generateColorSpectrum, if_neg (show ¬n ≤ 1 by omega)]
  rw [List.getElem?_append]
  rw [if_neg (by
    simp only [List.length_map, List.length_range]
    omega)]
  simp only [List.length_map, List.length_range]
  rw [show (n - 1) / 2 + k - ((n - 1) / 2 + 1) = k - 1 by omega]
  rw [List.getElem?_map, List.getElem?_range (by omega)]
  simp only [Option.map_some']
  rw [show k - 1 + 1 = k by omega]

/-- Counterexample to claim C2 as stated: at two legs the first color is
blue, not green. -/
theorem colorSpectrum_counterexample :
    (generateColorSpectrum 2)[0]? = some (rgbStr 0 0 255) ∧
    rgbStr 0 0 255 ≠ rgbStr 0 255 0 := by
  constructor
  · have h := spectrum_getElem_first 2 0 (by norm_num) (by norm_num)
    simpa [lerpChannel_one] using h
  · decide

/-- Claim C2 (amended): the spectrum has exactly `n` colors for `n ≥ 2`
(one green for `n ≤ 1`); the color at index `⌊(n-1)/2⌋` is blue and the
last is red; the first is green for `n ≥ 3`, while for `n = 2` the two
colors are blue then red; and the two halves are the rounded per-channel
linear interpolations green→blue and blue→red. -/
theorem generateColorSpectrum_amended (n i k : ℕ) :
    (n ≤ 1 → generateColorSpectrum n = [rgbStr 0 255 0]) ∧
    (2 ≤ n → (generateColorSpectrum n).length = n) ∧
    (2 ≤ n → (generateColorSpectrum n)[(n - 1) / 2]? = some (rgbStr 0 0 255)) ∧
    (2 ≤ n → (generateColorSpectrum n)[n - 1]? = some (rgbStr 255 0 0)) ∧
    (3 ≤ n → (generateColorSpectrum n)[0]? = some (rgbStr 0 255 0)) ∧
    generateColorSpectrum 2 = [rgbStr 0 0 255, rgbStr 255 0 0] ∧
    (2 ≤ n → i ≤ (n - 1) / 2 →
      (generateColorSpectrum n)[i]? = some
        (rgbStr
          (lerpChannel 0 0
            (if (n - 1) / 2 = 0 then (1 : ℚ) else (i : ℚ) / (((n - 1) / 2 : ℕ) : ℚ)))
          (lerpChannel 255 0
            (if (n - 1) / 2 = 0 then (1 : ℚ) else (i : ℚ) / (((n - 1) / 2 : ℕ) : ℚ)))
          (lerpChannel 0 255
            (if (n - 1) / 2 = 0 then (1 : ℚ) else (i : ℚ) / (((n - 1) / 2 : ℕ) : ℚ))))) ∧
    (2 ≤ n → 1 ≤ k → k ≤ n - 1 - (n - 1) / 2 →
      (generateColorSpectrum n)[(n - 1) / 2 + k]? = some
        (rgbStr
          (lerpChannel 0 255 ((k : ℚ) / ((n - 1 - (n - 1) / 2 : ℕ) : ℚ)))
          (lerpChannel 0 0 ((k : ℚ) / ((n - 1 - (n - 1) / 2 : ℕ) : ℚ)))
          (lerpChannel 255 0 ((k : ℚ) / ((n - 1 - (n - 1) / 2 : ℕ) : ℚ))))) := by
  have hmid : ∀ m : ℕ, 2 ≤ m → (m - 1) / 2 ≤ m - 1 := fun m _ => Nat.div_le_self _ _
  have hblue : ∀ m : ℕ, 2 ≤ m →
      (generateColorSpectrum m)[(m - 1) / 2]? = some (rgbStr 0 0 255) := by
    intro m hm
    have h := spectrum_getElem_first m ((m - 1) / 2) hm le_rfl
    by_cases hz : (m - 1) / 2 = 0
    · simpa [hz, lerpChannel_one] using h
    · have hq : (((m - 1) / 2 : ℕ) : ℚ) ≠ 0 := Nat.cast_ne_zero.mpr hz
      rw [if_neg hz, div_self hq, lerpChannel_one, lerpChannel_one, lerpChannel_one] at h
      exact h
  have hred : ∀ m : ℕ, 2 ≤ m →
      (generateColorSpectrum m)[m - 1]? = some (rgbStr 255 0 0) := by
    intro m hm
    have hs1 : 1 ≤ m - 1 - (m - 1) / 2 := by omega
    have h := spectrum_getElem_second m (m - 1 - (m - 1) / 2) hm hs1 le_rfl
    have hq : ((m - 1 - (m - 1) / 2 : ℕ) : ℚ) ≠ 0 :=
      Nat.cast_ne_zero.mpr (by omega)
    rw [div_self hq, lerpChannel_one, lerpChannel_one, lerpChannel_one] at h
    rw [show m - 1 = (m - 1) / 2 + (m - 1 - (m - 1) / 2) by omega]
    exact h
  refine ⟨?_, ?_, hblue n, hred n, ?_, ?_, spectrum_getElem_first n i,
    spectrum_getElem_second n k⟩
  · intro h
    simp [generateColorSpectrum, if_pos h]
  · intro hn
    simp only [generateColorSpectrum, if_neg (show ¬n ≤ 1 by omega)]
    simp only [List.length_append, List.length_map, List.length_range]
    omega
  · intro hn
    have h := spectrum_getElem_first n 0 (by omega) (Nat.zero_le _)
    have hz : ¬((n - 1) / 2 = 0) := by omega
    rw [if_neg hz] at h
    rw [Nat.cast_zero, zero_div, lerpChannel_zero, lerpChannel_zero, lerpChannel_zero] at h
    exact h
  · apply List.ext_getElem?
    intro j
    match j with
    | 0 => exact hblue 2 (by norm_num)
    | 1 => exact hred 2 (by norm_num)
    | (j + 2) =>
      rw [List.getElem?_eq_none, List.getElem?_eq_none]
      · simp
      · have h2 : (generateColorSpectrum 2).length = 2 := by
          simp only [generateColorSpectrum]
          norm_num
        omega

/-- Witness for claim C2 at five legs. -/
theorem generateColorSpectrum_amended_witness :
    (generateColorSpectrum 5).length = 5 ∧
    (generateColorSpectrum 5)[2]? = some (rgbStr 0 0 255) ∧
    (generateColorSpectrum 5)[4]? = some (rgbStr 255 0 0) ∧
    (generateColorSpectrum 5)[0]? = some (rgbStr 0 255 0) := by
  have h := generateColorSpectrum_amended 5 1 2
  exact ⟨h.2.1 (by norm_num), h.2.2.1 (by norm_num), h.2.2.2.1 (by norm_num),
    h.2.2.2.2.1 (by norm_num)⟩

/-! ## Claim C5 -/

theorem str_data_append (s t : String) : (s ++ t).data = s.data ++ t.data := rfl

theorem jsTrim_data (s : String) : (jsTrim s).data = trimChars s.data := rfl

theorem jsWs_digitChar (m : ℕ) : jsWs (digitChar m) = false := by
  unfold jsWs digitChar
  have h : m % 10 < 10 := Nat.mod_lt _ (by norm_num)
  generalize m % 10 = r at h
  interval_cases r <;> decide

theorem natStrCharsAux_head :
    ∀ fuel n : ℕ, 0 < fuel →
      ∃ c t, natStrCharsAux fuel n = c :: t ∧ jsWs c = false := by
  intro fuel
  induction fuel with
  | zero =>
    intro n h
    omega
  | succ f ih =>
    intro n _
    by_cases h10 : n < 10
    · exact ⟨digitChar n, [], by simp [natStrCharsAux, h10], jsWs_digitChar n⟩
    · rcases Nat.eq_zero_or_pos f with hf | hf
      · subst hf
        exact ⟨digitChar (n % 10), [], by simp [natStrCharsAux, h10], jsWs_digitChar _⟩
      · obtain ⟨c, t, heq, hws⟩ := ih (n / 10) hf
        refine ⟨c, t ++ [digitChar (n % 10)], ?_, hws⟩
        simp [natStrCharsAux, h10, heq]

theorem natStr_data_head (n : ℕ) :
    ∃ c t, (natStr n).data = c :: t ∧ jsWs c = false :=
  natStrCharsAux_head (n + 1) n (by omega)

theorem trimChars_eq_self (l : List Char)
    (hh : ∀ c ∈ l.head?, jsWs c = false)
    (hl : ∀ c ∈ l.getLast?, jsWs c = false) : trimChars l = l := by
  cases l with
  | nil => rfl
  | cons c t =>
    have hc : jsWs c = false := hh c rfl
    unfold trimChars
    rw [List.dropWhile_cons, if_neg (by simp [hc])]
    cases hr : (c :: t).reverse with
    | nil => simp at hr
    | cons e s' =>
      have he : jsWs e = false := by
        apply hl
        rw [← List.head?_reverse, hr]
        rfl
      have h2 : List.dropWhile jsWs (e :: s') = e :: s' := by
        rw [List.dropWhile_cons, if_neg]
        simp [he]
      rw [h2, ← hr, List.reverse_reverse]

theorem trimChars_append_space (l : List Char) :
    trimChars (l ++ [' ']) = trimChars l := by
  unfold trimChars
  rw [List.dropWhile_append]
  by_cases he : (l.dropWhile jsWs).isEmpty
  · rw [if_pos he]
    have hl : l.dropWhile jsWs = [] := List.isEmpty_iff.1 he
    rw [hl]
    rfl
  · rw [if_neg he, List.reverse_append]
    rw [show ([' '] : List Char).reverse = [' '] from rfl]
    rw [List.singleton_append, List.dropWhile_cons, if_pos (by decide)]

theorem jsTrim_append_space (s : String) : jsTrim (s ++ " ") = jsTrim s :=
  String.ext (by
    rw [jsTrim_data, jsTrim_data]
    exact trimChars_append_space s.data)

theorem jsTrim_eq_self (s : String)
    (hh : ∀ c ∈ s.data.head?, jsWs c = false)
    (hl : ∀ c ∈ s.data.getLast?, jsWs c = false) : jsTrim s = s :=
  String.ext (trimChars_eq_self s.data hh hl)

/-- The code's `N unit(s)` piece coincides with the specification's
pluralized component. -/
theorem unit_piece (n : ℕ) (unitLit unit : String) (hu : unitLit.data = ' ' :: unit.data) :
    natStr n ++ unitLit ++ (if n > 1 then "s" else "") = pluralizeSpec unit n := by
  apply String.ext
  simp only [pluralizeSpec, str_data_append, List.append_assoc, hu,
    show (" ").data = [' '] from rfl, List.cons_append, List.singleton_append,
    List.nil_append]

theorem pluralize_headI (unit : String) (n : ℕ) :
    (∀ c ∈ (pluralizeSpec unit n).data.head?, jsWs c = false) ∧
    (pluralizeSpec unit n).data ≠ [] := by
  obtain ⟨c, t, heq, hws⟩ := natStr_data_head n
  have hdata : (pluralizeSpec unit n).data =
      c :: (t ++ (" ".data ++ (unit.data ++ (if n > 1 then "s" else "").data))) := by
    simp only [pluralizeSpec, str_data_append, List.append_assoc, heq, List.cons_append]
  constructor
  · intro x hx
    rw [hdata] at hx
    simp only [List.head?_cons, Option.mem_def, Option.some.injEq] at hx
    rw [← hx]
    exact hws
  · rw [hdata]
    simp

theorem pluralize_last (unit : String) (n : ℕ)
    (hu : ∀ c ∈ unit.data.getLast?, jsWs c = false) (hne : unit.data ≠ []) :
    ∀ c ∈ (pluralizeSpec unit n).data.getLast?, jsWs c = false := by
  intro x hx
  rw [show (pluralizeSpec unit n).data =
      (natStr n ++ " " ++ unit).data ++ (if n > 1 then "s" else "").data from rfl] at hx
  by_cases h1 : n > 1
  · rw [if_pos h1] at hx
    rw [List.getLast?_append_of_ne_nil _ (by decide)] at hx
    have hxs : 's' = x := by simpa using hx
    rw [← hxs]
    decide
  · rw [if_neg h1] at hx
    rw [show ("" : String).data = [] from rfl, List.append_nil] at hx
    rw [show (natStr n ++ " " ++ unit).data = (natStr n ++ " ").data ++ unit.data from rfl,
      List.getLast?_append_of_ne_nil _ hne] at hx
    exact hu x hx

theorem append_data_ne_nil (s t : String) (hs : s.data ≠ []) : (s ++ t).data ≠ [] := by
  rw [str_data_append]
  simp [hs]

theorem append_data_ne_nilR (s t : String) (ht : t.data ≠ []) : (s ++ t).data ≠ [] := by
  rw [str_data_append]
  simp [ht]

theorem head_nonws_append (s t : String)
    (hs : ∀ c ∈ s.data.head?, jsWs c = false) (hne : s.data ≠ []) :
    ∀ c ∈ (s ++ t).data.head?, jsWs c = false := by
  intro x hx
  rw [str_data_append] at hx
  cases hd : s.data with
  | nil => exact absurd hd hne
  | cons c cs =>
    rw [hd, List.cons_append] at hx
    apply hs
    rw [hd]
    simpa using hx

theorem last_nonws_append (s t : String)
    (ht : ∀ c ∈ t.data.getLast?, jsWs c = false) (hne : t.data ≠ []) :
    ∀ c ∈ (s ++ t).data.getLast?, jsWs c = false := by
  intro x hx
  rw [str_data_append, List.getLast?_append_of_ne_nil _ hne] at hx
  exact ht x hx

/-- Claim C5: `_formatTotalDuration` renders exactly the non-zero
components of the days/hours/minutes decomposition, in that order,
space-separated and pluralized exactly above 1, and yields the empty
string below 60 seconds. -/
theorem formatTotalDuration_spec (s : ℕ) :
    formatTotalDuration s = joinSpace (durationComponentsSpec s) ∧
    (s < 60 → formatTotalDuration s = "") := by
  have hDay := unit_piece (s / 86400) " day" "day" rfl
  have hHour := unit_piece (s % 86400 / 3600) " hour" "hour" rfl
  have hMin := unit_piece (s % 3600 / 60) " min" "min" rfl
  have hmain : formatTotalDuration s = joinSpace (durationComponentsSpec s) := by
    simp only [formatTotalDuration, durationComponentsSpec]
    rw [show (3600 * 24 : ℕ) = 86400 from by norm_num]
    rw [Nat.mod_mod_of_dvd s (by norm_num : (3600 : ℕ) ∣ 86400)]
    rw [hDay, hHour, hMin]
    have hdH := pluralize_headI "day" (s / 86400)
    have hhH := pluralize_headI "hour" (s % 86400 / 3600)
    have hmH := pluralize_headI "min" (s % 3600 / 60)
    have hdL := pluralize_last "day" (s / 86400) (by decide) (by decide)
    have hhL := pluralize_last "hour" (s % 86400 / 3600) (by decide) (by decide)
    have hmL := pluralize_last "min" (s % 3600 / 60) (by decide) (by decide)
    generalize hPd : pluralizeSpec "day" (s / 86400) = Pd at *
    generalize hPh : pluralizeSpec "hour" (s % 86400 / 3600) = Ph at *
    generalize hPm : pluralizeSpec "min" (s % 3600 / 60) = Pm at *
    rcases Nat.eq_zero_or_pos (s / 86400) with hd | hd <;>
      rcases Nat.eq_zero_or_pos (s % 86400 / 3600) with hh | hh <;>
      rcases Nat.eq_zero_or_pos (s % 3600 / 60) with hm | hm
    · rw [hd, hh, hm]
      rfl
    · rw [hd, hh]
      simp only [if_neg (lt_irrefl 0), if_pos hm, String.empty_append,
        List.nil_append, List.singleton_append, joinSpace]
      exact jsTrim_eq_self Pm hmH.1 hmL
    · rw [hd, hm]
      simp only [if_neg (lt_irrefl 0), if_pos hh, String.empty_append,
        String.append_empty, List.nil_append, List.append_nil,
        List.singleton_append, joinSpace]
      rw [jsTrim_append_space]
      exact jsTrim_eq_self Ph hhH.1 hhL
    · rw [hd]
      simp only [if_neg (lt_irrefl 0), if_pos hh, if_pos hm, String.empty_append,
        List.nil_append, List.singleton_append, joinSpace]
      rw [String.append_assoc]
      exact jsTrim_eq_self _ (head_nonws_append Ph _ hhH.1 hhH.2)
        (last_nonws_append Ph _ (last_nonws_append " " Pm hmL hmH.2)
          (append_data_ne_nilR " " Pm hmH.2))
    · rw [hh, hm]
      simp only [if_neg (lt_irrefl 0), if_pos hd, String.append_empty,
        List.append_nil, List.singleton_append, joinSpace]
      rw [jsTrim_append_space]
      exact jsTrim_eq_self Pd hdH.1 hdL
    · rw [hh]
      simp only [if_neg (lt_irrefl 0), if_pos hd, if_pos hm, String.append_empty,
        String.empty_append, List.append_nil, List.nil_append,
        List.singleton_append, joinSpace]
      rw [String.append_assoc]
      exact jsTrim_eq_self _ (head_nonws_append Pd _ hdH.1 hdH.2)
        (last_nonws_append Pd _ (last_nonws_append " " Pm hmL hmH.2)
          (append_data_ne_nilR " " Pm hmH.2))
    · rw [hm]
      simp only [if_neg (lt_irrefl 0), if_pos hd, if_pos hh, String.append_empty,
        List.append_nil, List.singleton_append, joinSpace]
      rw [← String.append_assoc, jsTrim_append_space, String.append_assoc]
      exact jsTrim_eq_self _ (head_nonws_append Pd _ hdH.1 hdH.2)
        (last_nonws_append Pd _ (last_nonws_append " " Ph hhL hhH.2)
          (append_data_ne_nilR " " Ph hhH.2))
    · simp only [if_pos hd, if_pos hh, if_pos hm, List.cons_append,
        List.nil_append, List.singleton_append, joinSpace]
      rw [String.append_assoc]
      refine jsTrim_eq_self _ (head_nonws_append _ _
        (head_nonws_append Pd " " hdH.1 hdH.2) (append_data_ne_nil Pd " " hdH.2)) ?_
      exact last_nonws_append _ _ (last_nonws_append _ Pm hmL hmH.2)
        (append_data_ne_nilR _ Pm hmH.2)
  refine ⟨hmain, fun hlt => ?_⟩
  rw [hmain]
  have hd : s / 86400 = 0 := by omega
  have hh2 : s % 86400 / 3600 = 0 := by omega
  have hm2 : s % 3600 / 60 = 0 := by omega
  simp [durationComponentsSpec, hd, hh2, hm2, joinSpace]

/-- Witness for claim C5: 59 seconds renders as the empty string, and
90061 seconds as its non-zero components. -/
theorem formatTotalDuration_spec_witness :
    formatTotalDuration 59 = "" ∧
    formatTotalDuration 90061 = joinSpace (durationComponentsSpec 90061) :=
  ⟨(formatTotalDuration_spec 59).2 (by norm_num), (formatTotalDuration_spec 90061).1⟩

/-! ## Claim C3 -/

/-- The row loop keeps exactly the valid rows, producing one stop, one
date and one rate per kept row, in order. -/
theorem processRows_eq (dOr : String → Option String) (fOr : String → Option ℚ)
    (year : ℕ) (rows : List String) :
    processItineraryRows dOr fOr year rows =
      ((rows.filter isValidRow).map stopEntry,
       (rows.filter isValidRow).map (dateEntry dOr year),
       (rows.filter isValidRow).map (rateEntry fOr)) := by
  induction rows with
  | nil => rfl
  | cons row rest ih =>
    by_cases hv : isValidRow row
    · simp [processItineraryRows, List.filter_cons, hv, ih]
    · simp [processItineraryRows, List.filter_cons, hv, ih]

theorem isPrefixOf_append_self (l t : List Char) : l.isPrefixOf (l ++ t) = true := by
  induction l with
  | nil => simp [List.isPrefixOf]
  | cons c cs ih => simp [List.isPrefixOf, ih]

theorem hasSub_nil (l : List Char) : hasSub [] l = true := by
  induction l with
  | nil => rfl
  | cons c t ih => simp [hasSub, List.isPrefixOf]

theorem hasSub_append (sub x y : List Char) : hasSub sub (x ++ (sub ++ y)) = true := by
  induction x with
  | nil =>
    rw [List.nil_append]
    cases sub with
    | nil => exact hasSub_nil _
    | cons c t =>
      rw [List.cons_append, hasSub]
      simp [isPrefixOf_append_self (c :: t) y]
  | cons c x ih =>
    rw [List.cons_append, hasSub]
    simp [ih]

theorem stopEntry_includes (row : String) : jsIncludes (stopEntry row) ";;;" = true := by
  show hasSub (";;;").data ((stopNameForLabel row ++ ";;;" ++ stopQuery row)).data = true
  rw [str_data_append, str_data_append, List.append_assoc]
  exact hasSub_append _ _ _

/-- Claim C3: the parser returns null exactly when the cleaned input has
fewer than 3 lines, the first line has no pipe, the second no dash pair,
or fewer than 2 stops survive; otherwise it yields one structured
`name;;;query` stop per valid data row, one date per stop (empty when the
cell is missing, an em dash, or unparsable), and the parsed rates with
the first one dropped. -/
theorem parseItineraryTable_spec (dOr : String → Option String) (fOr : String → Option ℚ)
    (year : ℕ) (markdown : String) (r : ParsedItinerary) (row : String) :
    (parseItineraryTable dOr fOr year markdown = none ↔
      (tableLines markdown).length < 3 ∨
      jsIncludes ((tableLines markdown).getD 0 "") "|" = false ∨
      jsIncludes ((tableLines markdown).getD 1 "") "--" = false ∨
      (validDataRows markdown).length < 2) ∧
    (parseItineraryTable dOr fOr year markdown = some r →
      r.stops = (validDataRows markdown).map stopEntry ∧
      r.stops.all (fun stop => jsIncludes stop ";;;") = true ∧
      r.dates = (validDataRows markdown).map (dateEntry dOr year) ∧
      r.dates.length = r.stops.length ∧
      r.accommodationCosts = ((validDataRows markdown).map (rateEntry fOr)).drop 1 ∧
      r.accommodationCosts.length = r.stops.length - 1) ∧
    ((rowColumns row).getD 2 "" = "" ∨ (rowColumns row).getD 2 "" = "—" ∨
      dOr (firstDatePart row ++ " " ++ natStr year) = none →
      dateEntry dOr year row = "") := by
  have hacc := processRows_eq dOr fOr year ((tableLines markdown).drop 2)
  have hV : validDataRows markdown = ((tableLines markdown).drop 2).filter isValidRow := rfl
  refine ⟨?_, ?_, ?_⟩
  · by_cases h1 : (tableLines markdown).length < 3 ∨
        jsIncludes ((tableLines markdown).getD 0 "") "|" = false ∨
        jsIncludes ((tableLines markdown).getD 1 "") "--" = false
    · simp only [parseItineraryTable, if_pos h1]
      constructor
      · intro _
        rcases h1 with h | h | h
        · exact Or.inl h
        · exact Or.inr (Or.inl h)
        · exact Or.inr (Or.inr (Or.inl h))
      · intro _
        trivial
    · simp only [parseItineraryTable, if_neg h1, hacc, List.length_map]
      by_cases h2 : (((tableLines markdown).drop 2).filter isValidRow).length < 2
      · rw [if_pos h2]
        constructor
        · intro _
          exact Or.inr (Or.inr (Or.inr (by rw [hV]; exact h2)))
        · intro _
          trivial
      · rw [if_neg h2]
        constructor
        · intro hcontra
          exact absurd hcontra (by simp)
        · intro hOr
          exfalso
          rcases hOr with h | h | h | h
          · exact h1 (Or.inl h)
          · exact h1 (Or.inr (Or.inl h))
          · exact h1 (Or.inr (Or.inr h))
          · rw [hV] at h
            exact h2 h
  · intro hsome
    by_cases h1 : (tableLines markdown).length < 3 ∨
        jsIncludes ((tableLines markdown).getD 0 "") "|" = false ∨
        jsIncludes ((tableLines markdown).getD 1 "") "--" = false
    · simp only [parseItineraryTable, if_pos h1] at hsome
      exact absurd hsome (by simp)
    · simp only [parseItineraryTable, if_neg h1, hacc, List.length_map] at hsome
      by_cases h2 : (((tableLines markdown).drop 2).filter isValidRow).length < 2
      · rw [if_pos h2] at hsome
        exact absurd hsome (by simp)
      · rw [if_neg h2] at hsome
        have hr := Option.some.inj hsome
        subst hr
        refine ⟨by rw [hV], ?_, by rw [hV], by simp, by rw [hV], by simp⟩
        rw [List.all_eq_true]
        intro x hx
        obtain ⟨row', _, rfl⟩ := List.exists_of_mem_map hx
        exact stopEntry_includes row'
  · intro hor
    by_cases hc : ((rowColumns row).getD 2 "") ≠ "" ∧ ((rowColumns row).getD 2 "") ≠ "—"
    · rcases hor with h | h | h
      · exact absurd h hc.1
      · exact absurd h hc.2
      · simp only [dateEntry, if_pos hc, h]
    · simp only [dateEntry, if_neg hc]

/-- Witness for claim C3 on a concrete two-row itinerary table. -/
theorem parseItineraryTable_spec_witness :
    ((⟨["Paris;;;Paris", "Lyon;;;Lyon"], ["", ""], [0]⟩ : ParsedItinerary).stops =
        (validDataRows mdSample).map stopEntry ∧
      (⟨["Paris;;;Paris", "Lyon;;;Lyon"], ["", ""], [0]⟩ : ParsedItinerary).stops.all
        (fun stop => jsIncludes stop ";;;") = true ∧
      (⟨["Paris;;;Paris", "Lyon;;;Lyon"], ["", ""], [0]⟩ : ParsedItinerary).dates =
        (validDataRows mdSample).map (dateEntry dateOracleNone 2025) ∧
      (⟨["Paris;;;Paris", "Lyon;;;Lyon"], ["", ""], [0]⟩ : ParsedItinerary).dates.length =
        (⟨["Paris;;;Paris", "Lyon;;;Lyon"], ["", ""], [0]⟩ : ParsedItinerary).stops.length ∧
      (⟨["Paris;;;Paris", "Lyon;;;Lyon"], ["", ""], [0]⟩ :
          ParsedItinerary).accommodationCosts =
        ((validDataRows mdSample).map (rateEntry floatOracleNone)).drop 1 ∧
      (⟨["Paris;;;Paris", "Lyon;;;Lyon"], ["", ""], [0]⟩ :
          ParsedItinerary).accommodationCosts.length =
        (⟨["Paris;;;Paris", "Lyon;;;Lyon"], ["", ""], [0]⟩ :
          ParsedItinerary).stops.length - 1) ∧
    dateEntry dateOracleNone 2025 "| 2 | — | Lyon | — | x | y | z | — |" = "" := by
  have h := parseItineraryTable_spec dateOracleNone floatOracleNone 2025 mdSample
    ⟨["Paris;;;Paris", "Lyon;;;Lyon"], ["", ""], [0]⟩
    "| 2 | — | Lyon | — | x | y | z | — |"
  exact ⟨h.2.1 (by decide), h.2.2 (by decide)⟩

end RoutePlanner

